import Mathlib

/-!
Verification of the deterministic type-stub generator of `grail`
(`src/grail/stubs.py`).

The embedding models the Python runtime objects that `stubs.py` inspects:

* `Ann` is a type-annotation object as seen through `typing.get_origin` /
  `typing.get_args` and the `isinstance`/`hasattr` dispatch used by the
  source.  Named definitions (pydantic models, dataclasses, `NewType`
  objects, `TypeAliasType` objects) live on a heap `Env` keyed by object
  identity (`Nat`), and annotations point at them with `Ann.ref`; this is
  exactly the Python object graph, and it permits the cyclic object graphs
  that self-referential schemas produce.
* `GenState` is the per-run discovery state of `StubGenerator`
  (`_uses_any`, `_uses_callable` and the four name registries, which in
  Python map a name to the discovered object - here to its heap id).
* Functions that in Python recurse through object references (and hence can
  diverge on cyclic heaps) take an explicit recursion budget (fuel) and
  return `none` when it runs out; purely structural recursions do not.
-/

namespace Grail

/-- The builtin classes that `_annotation_to_stub` special-cases as generic
origins: `list`, `set`, `frozenset`, `dict`, `tuple` and
`collections.abc.Callable`. -/
inductive BClass where
  | blist
  | bset
  | bfrozenset
  | bdict
  | btuple
  | bcallable
  deriving DecidableEq, Repr

/-- The `__name__` of a builtin class. -/
def BClass.pyName : BClass → String
  | .blist => "list"
  | .bset => "set"
  | .bfrozenset => "frozenset"
  | .bdict => "dict"
  | .btuple => "tuple"
  | .bcallable => "Callable"

/-- The `__module__` of a builtin class. -/
def BClass.pyModule : BClass → String
  | .bcallable => "collections.abc"
  | _ => "builtins"

mutual

/-- A Python annotation object as dispatched on by `stubs.py`.

`empty` is `inspect.Signature.empty`; `anyT` is `typing.Any`; `noneT` is
`NoneType`; `ellipsisO` is the `Ellipsis` object (appearing among
`get_args` results); `unionO` stands for the union origin (both
`typing.Union` and `types.UnionType` - the source treats the two origins
identically, line 367); `builtin` is one of the special-cased builtin
classes; `ref` points at a named definition on the heap (a pydantic model,
dataclass, `NewType` or `TypeAliasType` object); `plainClass` is any other
class (e.g. `int`, `str`); `other` is a non-class object with no origin
(its `str()` and `repr()` texts); `pylist` is a Python list of annotations
(the parameter list of a subscripted `Callable`); `generic` is a
parameterized alias with `get_origin` = its origin and `get_args` = its
argument tuple. -/
inductive Ann where
  | empty
  | anyT
  | noneT
  | ellipsisO
  | unionO
  | builtin (b : BClass)
  | ref (id : Nat)
  | plainClass (module qualname name : String)
  | other (strText reprText : String)
  | pylist (xs : List Ann)
  | generic (origin : Ann) (args : List Ann)

/-- A named definition on the heap: a `NewType` object (with
`__module__`, `__qualname__`, `__name__` and `__supertype__`), a
`TypeAliasType` (with `__name__` and `__value__`), a pydantic `BaseModel`
subclass (with `__module__`, `__qualname__`, `__name__` and ordered
`model_fields`) or a dataclass (with ordered `dataclasses.fields`). -/
inductive Def where
  | newtype (module qualname name : String) (supertype : Ann)
  | talias (name : String) (value : Ann)
  | model (module qualname name : String) (fields : List (String × Ann))
  | dclass (module qualname name : String) (fields : List (String × Ann))

end

/-- The heap: object identity to named definition. -/
abbrev Env := List (Nat × Def)

/-- Dereference an object id. -/
def envGet (env : Env) (id : Nat) : Option Def :=
  match env with
  | [] => none
  | (i, d) :: rest => if i = id then some d else envGet rest id

/-- The `__name__` of a named definition. -/
def Def.defName : Def → String
  | .newtype _ _ n _ => n
  | .talias n _ => n
  | .model _ _ n _ => n
  | .dclass _ _ n _ => n

/-- The ordered field list of a model or dataclass (empty otherwise). -/
def Def.defFields : Def → List (String × Ann)
  | .model _ _ _ fs => fs
  | .dclass _ _ _ fs => fs
  | _ => []

mutual

/-- Models CPython `repr()` of an annotation object, reached by
`_stable_annotation_repr` only through the `repr(annotation)` fallback
(line 50), i.e. for objects carrying neither `__module__`+`__qualname__`
nor `__name__`: in practice `Ellipsis` and the Python parameter *list* of
a subscripted `Callable`.  CPython would wrap class names in quote marks;
the exact text is irrelevant here (it is only ever compared for equality
between runs of this same pure function), so classes render as
`<class module.qualname>`. -/
def pyRepr (env : Env) : Ann → String
  | .empty => "<class inspect._empty>"
  | .anyT => "typing.Any"
  | .noneT => "<class NoneType>"
  | .ellipsisO => "Ellipsis"
  | .unionO => "typing.Union"
  | .builtin b => "<class " ++ b.pyModule ++ "." ++ b.pyName ++ ">"
  | .ref id =>
      match envGet env id with
      | some (.newtype m _ n _) => m ++ "." ++ n
      | some (.talias n _) => n
      | some (.model m q _ _) => "<class " ++ m ++ "." ++ q ++ ">"
      | some (.dclass m q _ _) => "<class " ++ m ++ "." ++ q ++ ">"
      | none => "<dangling>"
  | .plainClass m q _ => "<class " ++ m ++ "." ++ q ++ ">"
  | .other _ r => r
  | .pylist xs => "[" ++ String.intercalate ", " (pyReprList env xs) ++ "]"
  | .generic o _ => "<generic " ++ pyRepr env o ++ ">"

def pyReprList (env : Env) : List Ann → List String
  | [] => []
  | a :: rest => pyRepr env a :: pyReprList env rest

end

/-- Models CPython `str()` of an annotation object, used by the
`get_origin`-is-`None` fallback of `_annotation_to_stub` (line 362):
`str(annotation)` before the `"typing."` prefix strip.  For objects
without a dedicated `__str__` this is the same text as `repr()`. -/
def pyStr (env : Env) : Ann → String
  | .other s _ => s
  | a => pyRepr env a

/-- The identity test `annotation is Ellipsis` used when iterating
`get_args` (lines 208, 330, 373, 386, 396). -/
def Ann.isEllipsis : Ann → Bool
  | .ellipsisO => true
  | _ => false

/-- Per-run discovery state of `StubGenerator` (`__init__`/`_reset`):
the two usage flags and the four insertion-ordered name registries
(Python dicts mapping a discovered name to the discovered object - here
to its heap id). -/
structure GenState where
  usesAny : Bool
  usesCallable : Bool
  newTypes : List (String × Nat)
  typeAliases : List (String × Nat)
  baseModels : List (String × Nat)
  dataclasses : List (String × Nat)
  deriving DecidableEq, Repr

/-- The state `_reset` establishes. -/
def GenState.initial : GenState := ⟨false, false, [], [], [], []⟩

/-- Python dict assignment `d[k] = v`: overwrite in place if the key is
present (keeping its position), else append. -/
def dinsert : List (String × Nat) → String → Nat → List (String × Nat)
  | [], k, v => [(k, v)]
  | (k', v') :: rest, k, v =>
      if k' = k then (k, v) :: rest else (k', v') :: dinsert rest k v

/-- Python dict lookup. -/
def dlookup : List (String × Nat) → String → Option Nat
  | [], _ => none
  | (k', v') :: rest, k => if k' = k then some v' else dlookup rest k

/-- The four registries of a state, in the order the source consults them. -/
def GenState.regQuad (st : GenState) :
    List (String × Nat) × List (String × Nat) × List (String × Nat) × List (String × Nat) :=
  (st.newTypes, st.typeAliases, st.baseModels, st.dataclasses)

/-- An `inspect._ParameterKind`. -/
inductive ParamKind where
  | positionalOnly
  | positionalOrKeyword
  | varPositional
  | keywordOnly
  | varKeyword
  deriving DecidableEq, Repr

/-- `str(param.kind)`. -/
def ParamKind.str : ParamKind → String
  | .positionalOnly => "POSITIONAL_ONLY"
  | .positionalOrKeyword => "POSITIONAL_OR_KEYWORD"
  | .varPositional => "VAR_POSITIONAL"
  | .keywordOnly => "KEYWORD_ONLY"
  | .varKeyword => "VAR_KEYWORD"

/-- One parameter of a tool signature.  `annot` is
`inspect.Signature.empty` (`Ann.empty`) when the parameter carries no
annotation; `default` is `none` when the parameter has no default and
otherwise holds the `repr()` text of the default value. -/
structure Param where
  name : String
  kind : ParamKind
  annot : Ann
  default : Option String

/-- A tool callable: `__name__`, object identity (never read by any
fingerprint or rendering code - it exists so that identity-independence
is a provable statement), `inspect.signature` parameters in order, and
the return annotation (`Ann.empty` when absent). -/
structure Tool where
  name : String
  objId : Nat
  params : List Param
  ret : Ann

/-- One `generate` request: the input model's heap id, the optional
output model's heap id, and the tool list in caller order. -/
structure Request where
  inputModel : Nat
  outputModel : Option Nat
  tools : List Tool

mutual

/-- Mirrors `_stable_annotation_repr` (stubs.py lines 27-50), branch for
branch: `Signature.empty`; `NoneType`; `Any`; a non-`None` `get_origin`
(recurse on origin and `get_args`); `isinstance(annotation, type)` (module
+ qualname - true of the builtins, plain classes, models and dataclasses);
`hasattr __module__ and __qualname__` (true of `NewType` objects);
`hasattr __name__` (true of `TypeAliasType` objects, which carry no
`__qualname__`); final `repr(annotation)` fallback.  `typing.Union` as an
origin renders as its qualified name. -/
def stableAnnRepr (env : Env) : Ann → String
  | .empty => "<empty>"
  | .noneT => "None"
  | .anyT => "Any"
  | .generic o args =>
      stableAnnRepr env o ++ "[" ++ String.intercalate ", " (stableAnnReprList env args) ++ "]"
  | .builtin b => b.pyModule ++ "." ++ b.pyName
  | .plainClass m q _ => m ++ "." ++ q
  | .ref id =>
      match envGet env id with
      | some (.model m q _ _) => m ++ "." ++ q
      | some (.dclass m q _ _) => m ++ "." ++ q
      | some (.newtype m q _ _) => m ++ "." ++ q
      | some (.talias n _) => n
      | none => "<dangling>"
  | .unionO => "typing.Union"
  | .ellipsisO => "Ellipsis"
  | .other _ r => r
  | .pylist xs => "[" ++ String.intercalate ", " (pyReprList env xs) ++ "]"

def stableAnnReprList (env : Env) : List Ann → List String
  | [] => []
  | a :: rest => stableAnnRepr env a :: stableAnnReprList env rest

end

/-- A tool fingerprint: `(tool.__name__, signature_text)`. -/
abbrev ToolFingerprint := String × String

/-- Mirrors `_tool_fingerprint` (lines 53-77): each parameter contributes
`name|kind|stable-annotation-repr|default-repr` (default text `<empty>`
when absent); the parameter texts are joined with `,` and the return
annotation's stable repr is appended after a final `|`. -/
def toolFingerprint (env : Env) (tool : Tool) : ToolFingerprint :=
  let parameters := tool.params.map fun p =>
    String.intercalate "|"
      [p.name, p.kind.str, stableAnnRepr env p.annot,
       match p.default with
       | none => "<empty>"
       | some r => r]
  let signatureText :=
    String.intercalate "|" [String.intercalate "," parameters, stableAnnRepr env tool.ret]
  (tool.name, signatureText)

/-- Mirrors `_model_identity` (lines 21-24): `None` maps to `None`, a
model class to `module.qualname`.  (Only ever applied to model classes;
the other cases are the same attribute access on other heap objects.) -/
def modelIdentity (env : Env) : Option Nat → Option String
  | none => none
  | some id =>
      some (match envGet env id with
        | some (.model m q _ _) => m ++ "." ++ q
        | some (.dclass m q _ _) => m ++ "." ++ q
        | some (.newtype m q _ _) => m ++ "." ++ q
        | some (.talias n _) => n
        | none => "<dangling>")

/-- The cache key type of `stubs.py` line 18. -/
abbrev CacheKey := String × Option String × List ToolFingerprint

/-- Mirrors `_cache_key` (lines 80-90). -/
def cacheKey (env : Env) (r : Request) : CacheKey :=
  ((modelIdentity env (some r.inputModel)).getD "",
   modelIdentity env r.outputModel,
   r.tools.map (toolFingerprint env))

/-- The process-wide cache `StubGenerator._cache` (line 96), passed
explicitly. -/
abbrev Cache := List (CacheKey × String)

/-- Python dict lookup on the cache. -/
def lookupCache : Cache → CacheKey → Option String
  | [], _ => none
  | (k, v) :: rest, key => if k = key then some v else lookupCache rest key

/-- Lexicographic code-point comparison of character lists: the order
Python uses to compare strings. -/
def charListLe : List Char → List Char → Bool
  | [], _ => true
  | _ :: _, [] => false
  | c :: cs, d :: ds =>
      if c.toNat < d.toNat then true
      else if d.toNat < c.toNat then false
      else charListLe cs ds

/-- Python string `<=`: lexicographic by code point. -/
def strLe (s t : String) : Bool := charListLe s.data t.data

/-- Python `x in xs` on a string list. -/
def memStr (s : String) : List String → Bool
  | [] => false
  | t :: rest => if s = t then true else memStr s rest

/-- Insert a string into a sorted list (before the first element it is
`<=`, which matches the output of Python `sorted` on any input order). -/
def insortStr (s : String) : List String → List String
  | [] => [s]
  | t :: rest => if strLe s t then s :: t :: rest else t :: insortStr s rest

/-- Python `sorted` on a list of strings. -/
def pySortedStr : List String → List String
  | [] => []
  | s :: rest => insortStr s (pySortedStr rest)

/-- The `seen`-set deduplication loop of `_render_union` (lines 413-418):
keep the first occurrence of each string, drop later repeats. -/
def dedupSeen (seen : List String) : List String → List String
  | [] => []
  | s :: rest =>
      if memStr s seen then dedupSeen seen rest
      else s :: dedupSeen (s :: seen) rest

/-- The canonical member list `_render_union` joins with `" | "` (lines
411-422): the non-`"None"` member texts sorted and deduplicated, with one
final `"None"` if any member rendered to `"None"`.  (When every member is
`"None"` this is `["None"]`, matching the source's early `"None"` return;
when no member exists the join of `[]` is `""`, as in the source.) -/
def unionCanon (rendered : List String) : List String :=
  dedupSeen [] (pySortedStr (rendered.filter (· ≠ "None")))
    ++ (if memStr "None" rendered then ["None"] else [])

/-- Python `str.replace("typing.", "")` on the character list: drop every
(non-overlapping, left-to-right) occurrence of `typing.`. -/
def dropTypingChars : List Char → List Char
  | [] => []
  | 't' :: 'y' :: 'p' :: 'i' :: 'n' :: 'g' :: '.' :: rest => dropTypingChars rest
  | c :: rest => c :: dropTypingChars rest

/-- Python `text.replace("typing.", "")`. -/
def pyReplaceTyping (s : String) : String := ⟨dropTypingChars s.data⟩

/-- The `get_origin`-is-`None` fallback of `_annotation_to_stub` (lines
360-365): `str(annotation)` with `"typing."` stripped, setting the
dynamic flag when the resulting text is exactly `"Any"`. -/
def strFallback (env : Env) (a : Ann) (st : GenState) : String × GenState :=
  let text := pyReplaceTyping (pyStr env a)
  (text, if text = "Any" then { st with usesAny := true } else st)

mutual

/-- Mirrors `_annotation_to_stub` (lines 334-407), branch for branch, in
the source's dispatch order (the constructors are disjoint, so the match
order is equivalent): `Signature.empty` or `Any`; `NoneType`; new-type /
type-alias / model / dataclass (register under `__name__`, return the
bare name); any other plain class (bare `__name__`); no origin
(`str()`-fallback); union origin; all other origins first render the
ellipsis-filtered argument list (with its side effects, line 370-374) and
then branch on the origin. -/
def annotToStub (env : Env) : Ann → GenState → String × GenState
  | .empty, st => ("Any", { st with usesAny := true })
  | .anyT, st => ("Any", { st with usesAny := true })
  | .noneT, st => ("None", st)
  | .ref id, st =>
      (match envGet env id with
        | some (.newtype _ _ n _) => (n, { st with newTypes := dinsert st.newTypes n id })
        | some (.talias n _) => (n, { st with typeAliases := dinsert st.typeAliases n id })
        | some (.model _ _ n _) => (n, { st with baseModels := dinsert st.baseModels n id })
        | some (.dclass _ _ n _) => (n, { st with dataclasses := dinsert st.dataclasses n id })
        | none => ("<dangling>", st))
  | .builtin b, st => (b.pyName, st)
  | .plainClass _ _ n, st => (n, st)
  | .unionO, st => strFallback env .unionO st
  | .ellipsisO, st => strFallback env .ellipsisO st
  | .other s r, st => strFallback env (.other s r) st
  | .pylist xs, st => strFallback env (.pylist xs) st
  | .generic .unionO args, st =>
      -- union origin (line 367-368): delegates to `_render_union`; the
      -- wrapper `renderUnion` below packages these two lines.
      let (rendered, st1) := stubListAll env args st
      (String.intercalate " | " (unionCanon rendered), st1)
  | .generic (.builtin .blist) args, st =>
      let (rargs, st1) := stubArgs env args st
      ("list[" ++ rargs.headD "Any" ++ "]",
       { st1 with usesAny := st1.usesAny || rargs.isEmpty })
  | .generic (.builtin .bset) args, st =>
      let (rargs, st1) := stubArgs env args st
      ("set[" ++ rargs.headD "Any" ++ "]",
       { st1 with usesAny := st1.usesAny || rargs.isEmpty })
  | .generic (.builtin .bfrozenset) args, st =>
      let (rargs, st1) := stubArgs env args st
      ("frozenset[" ++ rargs.headD "Any" ++ "]",
       { st1 with usesAny := st1.usesAny || rargs.isEmpty })
  | .generic (.builtin .bdict) args, st =>
      let (rargs, st1) := stubArgs env args st
      ("dict[" ++ (rargs.get? 0).getD "Any" ++ ", " ++ (rargs.get? 1).getD "Any" ++ "]",
       { st1 with usesAny := st1.usesAny || decide (rargs.length < 2) })
  | .generic (.builtin .btuple) args, st =>
      -- line 370-374 first renders the ellipsis-filtered argument list
      -- (with its side effects); `tuple[T, ...]` (exactly two raw
      -- arguments, the second being `Ellipsis`, lines 385-387) then
      -- renders `T` a second time.
      let (rargs, st1) := stubArgs env args st
      match args with
      | [a0, a1] =>
          if a1.isEllipsis then
            let (t0, st2) := annotToStub env a0 st1
            ("tuple[" ++ t0 ++ ", ...]", st2)
          else
            (if rargs.isEmpty then "tuple[Any, ...]"
             else "tuple[" ++ String.intercalate ", " rargs ++ "]", st1)
      | _ =>
          (if rargs.isEmpty then "tuple[Any, ...]"
           else "tuple[" ++ String.intercalate ", " rargs ++ "]", st1)
  | .generic (.builtin .bcallable) args, st =>
      -- lines 389-404: the ellipsis-filtered argument rendering of line
      -- 370-374 ran first (side effects only); `_uses_callable` is set;
      -- with anything but a (params, return) pair the stub degrades to
      -- `Callable[..., Any]` and sets the dynamic flag.
      let (_, st1) := stubArgs env args st
      let st2 := { st1 with usesCallable := true }
      match args with
      | [pspec, retSpec] =>
          if pspec.isEllipsis then
            let (rt, st3) := annotToStub env retSpec st2
            ("Callable[..., " ++ rt ++ "]", st3)
          else
            match pspec with
            | .pylist ps =>
                let (ptexts, st3) := stubListAll env ps st2
                let (rt, st4) := annotToStub env retSpec st3
                ("Callable[[" ++ String.intercalate ", " ptexts ++ "], " ++ rt ++ "]", st4)
            | _ =>
                -- CPython raises TypeError iterating a non-list,
                -- non-ellipsis parameter spec (reachable only through
                -- ParamSpec, outside this model); unreachable junk.
                ("<TypeError>", st2)
      | _ => ("Callable[..., Any]", { st2 with usesAny := true })
  | .generic origin args, st =>
      let (rargs, st1) := stubArgs env args st
      let (originName, st2) := annotToStub env origin st1
      (if rargs.isEmpty then originName
       else originName ++ "[" ++ String.intercalate ", " rargs ++ "]", st2)

/-- The argument-list comprehension of line 370-374: render every
`get_args` element that is not `Ellipsis`, threading the discovery
state. -/
def stubArgs (env : Env) : List Ann → GenState → List String × GenState
  | [], st => ([], st)
  | a :: rest, st =>
      if a.isEllipsis then stubArgs env rest st
      else
        let (t, st1) := annotToStub env a st
        let (ts, st2) := stubArgs env rest st1
        (t :: ts, st2)

/-- Render every element of a Python list of annotations (the union
members of `_render_union` line 410, and the bracketed parameter list of
a `Callable`). -/
def stubListAll (env : Env) : List Ann → GenState → List String × GenState
  | [], st => ([], st)
  | a :: rest, st =>
      let (t, st1) := annotToStub env a st
      let (ts, st2) := stubListAll env rest st1
      (t :: ts, st2)

end

/-- Mirrors `_render_union` (lines 409-422): render all members, then
join the canonical member list with `" | "`.  (Definitionally the union
arm of `annotToStub`.) -/
def renderUnion (env : Env) (args : List Ann) (st : GenState) : String × GenState :=
  let (rendered, st1) := stubListAll env args st
  (String.intercalate " | " (unionCanon rendered), st1)

/-- The field loop of `_model_stub`/`_dataclass_stub` (lines 257-259 and
266-268): one `    name: stub` line per field, in declaration order,
threading the discovery state. -/
def fieldLinesOf (env : Env) : List (String × Ann) → GenState → List String × GenState
  | [], st => ([], st)
  | (n, a) :: rest, st =>
      let (t, st1) := annotToStub env a st
      let (ls, st2) := fieldLinesOf env rest st1
      (("    " ++ n ++ ": " ++ t) :: ls, st2)

/-- The `lines` list of `_model_stub` (lines 255-262): a
`class Name(TypedDict):` header, the field lines in declaration order,
and a `    pass` line when there are no field lines. -/
def modelStubLines (env : Env) (name : String) (fields : List (String × Ann))
    (st : GenState) : List String × GenState :=
  let (fieldLines, st1) := fieldLinesOf env fields st
  let lines := ("class " ++ name ++ "(TypedDict):") :: fieldLines
  (if lines.length = 1 then lines ++ ["    pass"] else lines, st1)

/-- Mirrors `_model_stub` (lines 255-262): the joined lines. -/
def modelStub (env : Env) (name : String) (fields : List (String × Ann))
    (st : GenState) : String × GenState :=
  let (lines, st1) := modelStubLines env name fields st
  (String.intercalate "\n" lines, st1)

/-- The `lines` list of `_dataclass_stub` (lines 264-271): as
`modelStubLines` but with a bare `class Name:` header. -/
def dataclassStubLines (env : Env) (name : String) (fields : List (String × Ann))
    (st : GenState) : List String × GenState :=
  let (fieldLines, st1) := fieldLinesOf env fields st
  let lines := ("class " ++ name ++ ":") :: fieldLines
  (if lines.length = 1 then lines ++ ["    pass"] else lines, st1)

/-- Mirrors `_dataclass_stub` (lines 264-271). -/
def dataclassStub (env : Env) (name : String) (fields : List (String × Ann))
    (st : GenState) : String × GenState :=
  let (lines, st1) := dataclassStubLines env name fields st
  (String.intercalate "\n" lines, st1)

/-- `_model_stub` applied to a heap object (the source passes the model
class itself).  A non-model argument cannot occur in a well-typed run. -/
def modelStubById (env : Env) (id : Nat) (st : GenState) : String × GenState :=
  match envGet env id with
  | some (.model _ _ n fields) => modelStub env n fields st
  | _ => ("<not a model>", st)

/-- The parameter loop of `_tool_stub` (lines 275-281): `*name` for
`VAR_POSITIONAL`, `**name` for `VAR_KEYWORD` (neither renders its
annotation), otherwise `name: stub`. -/
def toolParamTexts (env : Env) : List Param → GenState → List String × GenState
  | [], st => ([], st)
  | p :: rest, st =>
      match p.kind with
      | .varPositional =>
          let (ts, st1) := toolParamTexts env rest st
          (("*" ++ p.name) :: ts, st1)
      | .varKeyword =>
          let (ts, st1) := toolParamTexts env rest st
          (("**" ++ p.name) :: ts, st1)
      | _ =>
          let (t, st1) := annotToStub env p.annot st
          let (ts, st2) := toolParamTexts env rest st1
          ((p.name ++ ": " ++ t) :: ts, st2)

/-- Mirrors `_tool_stub` (lines 273-284). -/
def toolStub (env : Env) (t : Tool) (st : GenState) : String × GenState :=
  let (ps, st1) := toolParamTexts env t.params st
  let (rt, st2) := annotToStub env t.ret st1
  ("def " ++ t.name ++ "(" ++ String.intercalate ", " ps ++ ") -> " ++ rt ++ ": ...", st2)

mutual

/-- Mirrors `_collect_annotation` (lines 296-332), branch for branch:
`Signature.empty` (return, WITHOUT setting the dynamic flag); `Any` (set
the dynamic flag); `NoneType`; new-type (register, recurse into the
supertype); type alias (register, recurse into the value); model
(register, recurse into every field annotation); dataclass (likewise);
no origin (return); otherwise recurse into every non-`Ellipsis`
`get_args` element.  Registration does NOT check whether the name is
already registered before recursing, so the walk diverges on cyclic
object graphs; the fuel argument makes that observable as `none` for
every fuel value. -/
def collectAnn (env : Env) : Nat → Ann → GenState → Option GenState
  | 0, _, _ => none
  | _ + 1, .empty, st => some st
  | _ + 1, .anyT, st => some { st with usesAny := true }
  | _ + 1, .noneT, st => some st
  | n + 1, .ref id, st =>
      match envGet env id with
      | some (.newtype _ _ nm sup) =>
          collectAnn env n sup { st with newTypes := dinsert st.newTypes nm id }
      | some (.talias nm v) =>
          collectAnn env n v { st with typeAliases := dinsert st.typeAliases nm id }
      | some (.model _ _ nm fields) =>
          collectFields env n fields { st with baseModels := dinsert st.baseModels nm id }
      | some (.dclass _ _ nm fields) =>
          collectFields env n fields { st with dataclasses := dinsert st.dataclasses nm id }
      | none => some st
  | n + 1, .generic _ args, st => collectArgs env n args st
  | _ + 1, _, st => some st

/-- The field loop of `_collect_model_annotations` (lines 286-288) and of
the dataclass branch (lines 322-323). -/
def collectFields (env : Env) : Nat → List (String × Ann) → GenState → Option GenState
  | 0, _, _ => none
  | _ + 1, [], st => some st
  | n + 1, (_, a) :: rest, st =>
      (collectAnn env n a st).bind fun st1 => collectFields env n rest st1

/-- The `get_args` loop of lines 329-332, skipping `Ellipsis`. -/
def collectArgs (env : Env) : Nat → List Ann → GenState → Option GenState
  | 0, _, _ => none
  | _ + 1, [], st => some st
  | n + 1, a :: rest, st =>
      if a.isEllipsis then collectArgs env n rest st
      else (collectAnn env n a st).bind fun st1 => collectArgs env n rest st1

end

/-- Mirrors `_collect_model_annotations` (lines 286-288) on a heap id. -/
def collectModelAnns (env : Env) (fuel : Nat) (id : Nat) (st : GenState) :
    Option GenState :=
  match envGet env id with
  | some (.model _ _ _ fields) => collectFields env fuel fields st
  | _ => some st

/-- The parameter loop of `_collect_tool_annotations` (lines 290-294). -/
def collectToolParams (env : Env) (fuel : Nat) : List Param → GenState → Option GenState
  | [], st => some st
  | p :: rest, st =>
      (collectAnn env fuel p.annot st).bind fun st1 =>
        collectToolParams env fuel rest st1

/-- Mirrors `_collect_tool_annotations` (lines 290-294): every parameter
annotation, then the return annotation. -/
def collectTool (env : Env) (fuel : Nat) (t : Tool) (st : GenState) : Option GenState :=
  (collectToolParams env fuel t.params st).bind fun st1 =>
    collectAnn env fuel t.ret st1

/-- The tool loop of `_generate_uncached` (lines 138-139). -/
def collectTools (env : Env) (fuel : Nat) : List Tool → GenState → Option GenState
  | [], st => some st
  | t :: rest, st =>
      (collectTool env fuel t st).bind fun st1 => collectTools env fuel rest st1

/-- The whole collection phase of `_generate_uncached` (lines 133-139):
reset, walk the input model's fields, the output model's fields if
present, then every tool. -/
def collectPhase (env : Env) (fuel : Nat) (r : Request) : Option GenState :=
  (collectModelAnns env fuel r.inputModel GenState.initial).bind fun st1 =>
    (match r.outputModel with
      | some o => collectModelAnns env fuel o st1
      | none => some st1).bind fun st2 =>
      collectTools env fuel r.tools st2

/-- The import-name computation of `_generate_uncached` (lines 141-147):
`["TypedDict"]`, with `"Any"` inserted at the front when the dynamic flag
is set, `"Callable"` appended when the callable flag is set, `"NewType"`
appended when the new-type registry is non-empty.  Evaluated on the
post-collection state, BEFORE any rendering happens. -/
def importNames (st : GenState) : List String :=
  let i1 := if st.usesAny then "Any" :: ["TypedDict"] else ["TypedDict"]
  let i2 := if st.usesCallable then i1 ++ ["Callable"] else i1
  if st.newTypes.isEmpty then i2 else i2 ++ ["NewType"]

/-- The state of the `_render_custom_definitions` closure: the generator
state, the `rendered` list and the `emitted` set. -/
structure EmitSt where
  st : GenState
  rendered : List String
  emitted : List String
  deriving DecidableEq, Repr

mutual

/-- Mirrors the inner `emit_for_annotation` (lines 188-210):
`Signature.empty` returns; a new-type / alias / model / dataclass object
delegates to `emit_named` under its `__name__`; anything without an
origin returns; otherwise recurse into every non-`Ellipsis` `get_args`
element.  Fueled: the recursion goes through the registries and heap, and
diverges on name-cyclic definitions. -/
def emitForAnn (env : Env) (skip : List String) : Nat → Ann → EmitSt → Option EmitSt
  | 0, _, _ => none
  | _ + 1, .empty, es => some es
  | n + 1, .ref id, es =>
      match envGet env id with
      | some d => emitNamed env skip n d.defName es
      | none => some es
  | n + 1, .generic _ args, es => emitArgs env skip n args es
  | _ + 1, _, es => some es

/-- The `get_args` loop of lines 204-210, skipping `Ellipsis`. -/
def emitArgs (env : Env) (skip : List String) : Nat → List Ann → EmitSt → Option EmitSt
  | 0, _, _ => none
  | _ + 1, [], es => some es
  | n + 1, a :: rest, es =>
      if a.isEllipsis then emitArgs env skip n rest es
      else (emitForAnn env skip n a es).bind fun es1 => emitArgs env skip n rest es1

/-- The field loop of the model/dataclass branches (lines 232-233 and
239-240). -/
def emitFields (env : Env) (skip : List String) :
    Nat → List (String × Ann) → EmitSt → Option EmitSt
  | 0, _, _ => none
  | _ + 1, [], es => some es
  | n + 1, (_, a) :: rest, es =>
      (emitForAnn env skip n a es).bind fun es1 => emitFields env skip n rest es1

/-- Mirrors the inner `emit_named` (lines 212-242): nothing to do for an
already-emitted name; otherwise consult the four live registries in
order.  A new-type first emits the dependencies of its supertype, then
appends `name = NewType("name", supertype-stub)`; an alias appends
`name = value-stub`; a model appends nothing when its name is in
`skip_model_names`, else emits its fields' dependencies and appends its
`_model_stub` block; a dataclass likewise with `_dataclass_stub`.  In
each case the name joins `emitted` only AFTER its dependencies were
walked (which is why name-cyclic definitions diverge).  A registry entry
whose heap object is not of the registry's kind would make the Python
attribute accesses raise; that is modelled as `none`. -/
def emitNamed (env : Env) (skip : List String) : Nat → String → EmitSt → Option EmitSt
  | 0, _, _ => none
  | n + 1, name, es =>
      if memStr name es.emitted then some es
      else
        match dlookup es.st.newTypes name with
        | some id =>
            match envGet env id with
            | some (.newtype _ _ _ sup) =>
                (emitForAnn env skip n sup es).bind fun es1 =>
                  let (supText, st2) := annotToStub env sup es1.st
                  some ⟨st2,
                    es1.rendered ++ [name ++ " = NewType(\"" ++ name ++ "\", " ++ supText ++ ")"],
                    es1.emitted ++ [name]⟩
            | _ => none
        | none =>
        match dlookup es.st.typeAliases name with
        | some id =>
            match envGet env id with
            | some (.talias _ v) =>
                (emitForAnn env skip n v es).bind fun es1 =>
                  let (vText, st2) := annotToStub env v es1.st
                  some ⟨st2, es1.rendered ++ [name ++ " = " ++ vText], es1.emitted ++ [name]⟩
            | _ => none
        | none =>
        match dlookup es.st.baseModels name with
        | some id =>
            if memStr name skip then some es
            else
              match envGet env id with
              | some (.model _ _ nm fields) =>
                  (emitFields env skip n fields es).bind fun es1 =>
                    let (block, st2) := modelStub env nm fields es1.st
                    some ⟨st2, es1.rendered ++ [block], es1.emitted ++ [name]⟩
              | _ => none
        | none =>
        match dlookup es.st.dataclasses name with
        | some id =>
            match envGet env id with
            | some (.dclass _ _ nm fields) =>
                (emitFields env skip n fields es).bind fun es1 =>
                  let (block, st2) := dataclassStub env nm fields es1.st
                  some ⟨st2, es1.rendered ++ [block], es1.emitted ++ [name]⟩
            | _ => none
        | none => some es

end

/-- The candidate loop of `_render_custom_definitions` (lines 244-251). -/
def emitAll (env : Env) (skip : List String) (fuel : Nat) :
    List String → EmitSt → Option EmitSt
  | [], es => some es
  | c :: rest, es =>
      (emitNamed env skip fuel c es).bind fun es1 => emitAll env skip fuel rest es1

/-- The names registered across the four registries, in registry order. -/
def regNames (st : GenState) : List String :=
  (st.newTypes ++ st.typeAliases ++ st.baseModels ++ st.dataclasses).map (·.1)

/-- Mirrors `_render_custom_definitions` (lines 184-253): the candidate
set is the union of the four registries' key sets, iterated in sorted
order; returns the rendered blocks and the final generator state. -/
def renderCustomDefs (env : Env) (fuel : Nat) (skip : List String)
    (st : GenState) : Option (List String × GenState) :=
  let candidates := pySortedStr (regNames st).dedup
  (emitAll env skip fuel candidates ⟨st, [], []⟩).map fun es => (es.rendered, es.st)

/-- Drop leading whitespace characters. -/
def dropLeadingWs : List Char → List Char
  | [] => []
  | c :: rest => if c.isWhitespace then dropLeadingWs rest else c :: rest

/-- Python `str.strip()`: remove leading and trailing whitespace. -/
def pyStrip (s : String) : String :=
  ⟨dropLeadingWs ((dropLeadingWs s.data.reverse).reverse)⟩

/-- `model.__name__` of a heap object (used for `skip_model_names`). -/
def modelNameOf (env : Env) (id : Nat) : String :=
  match envGet env id with
  | some d => d.defName
  | none => "<dangling>"

/-- Stable insertion of a tool into a name-sorted tool list. -/
def insortTool (t : Tool) : List Tool → List Tool
  | [] => [t]
  | u :: rest => if strLe t.name u.name then t :: u :: rest else u :: insortTool t rest

/-- `sorted(tools, key=lambda item: item.__name__)` (line 169): Python's
sort is stable, as is this insertion sort. -/
def sortToolsByName : List Tool → List Tool
  | [] => []
  | t :: rest => insortTool t (sortToolsByName rest)

/-- The tool loop of lines 169-171: append `"\n\n"` and the tool stub for
each tool, in name-sorted order. -/
def appendToolStubs (env : Env) : List Tool → String → GenState → String × GenState
  | [], acc, st => (acc, st)
  | t :: rest, acc, st =>
      let (ts, st1) := toolStub env t st
      appendToolStubs env rest (acc ++ "\n\n" ++ ts) st1

/-- Mirrors `_generate_uncached` (lines 126-173): collection phase, the
header import line from the post-collection state, custom-definition blocks,
input-model block, optional output-model block, name-sorted tool stubs;
finally `strip()` and exactly one trailing newline.  `none` when the
collection or emission recursion exhausts its fuel (in Python: unbounded
recursion on cyclic object graphs). -/
def generateUncached (env : Env) (fuel : Nat) (r : Request) : Option String :=
  (collectPhase env fuel r).bind fun st3 =>
    let skip := [modelNameOf env r.inputModel,
                 match r.outputModel with
                 | some o => modelNameOf env o
                 | none => ""]
    (renderCustomDefs env fuel skip st3).bind fun bl =>
      let headerText := "from typing import " ++ String.intercalate ", " (importNames st3)
      let t1 := headerText ++ "\n\n\n"
      let t2 := if bl.1.isEmpty then t1
                else t1 ++ String.intercalate "\n\n" bl.1 ++ "\n\n"
      let (inStub, st5) := modelStubById env r.inputModel bl.2
      let t3 := t2 ++ inStub
      let (t4, st6) :=
        match r.outputModel with
        | none => (t3, st5)
        | some o =>
            let (outStub, st6) := modelStubById env o st5
            (t3 ++ "\n\n" ++ outStub, st6)
      some (pyStrip (appendToolStubs env (sortToolsByName r.tools) t4 st6).1 ++ "\n")

/-- Mirrors `StubGenerator.generate` (lines 106-124), with the
process-wide cache passed explicitly and a boolean recording whether the
renderer (`_generate_uncached`) was invoked: on a hit the stored text is
returned unchanged with the cache untouched; on a miss the renderer runs
and its result is stored under the key. -/
def generate (env : Env) (fuel : Nat) (cache : Cache) (r : Request) :
    Option (String × Cache × Bool) :=
  match lookupCache cache (cacheKey env r) with
  | some cached => some (cached, cache, false)
  | none =>
      (generateUncached env fuel r).map fun rendered =>
        (rendered, (cacheKey env r, rendered) :: cache, true)

/-! ## Derived pure views

`annotToStub` returns a text that does not depend on the incoming
discovery state (its state argument is only written to, never read for
text purposes); `annotToStub_fst_const` below proves this, making the
following canonical-text functions well-defined views of the renderer. -/

/-- The rendered text of one annotation. -/
def stubText (env : Env) (a : Ann) : String :=
  (annotToStub env a GenState.initial).1

/-- The text of a `_model_stub` block. -/
def modelStubText (env : Env) (name : String) (fields : List (String × Ann)) : String :=
  (modelStub env name fields GenState.initial).1

/-- The text of a `_dataclass_stub` block. -/
def dataclassStubText (env : Env) (name : String) (fields : List (String × Ann)) : String :=
  (dataclassStub env name fields GenState.initial).1

mutual

/-- An annotation with no references into the heap: no named type is
reachable from it.  (`emit_for_annotation` finds nothing to emit below
such an annotation, and rendering it registers nothing.) -/
def refFree : Ann → Bool
  | .ref _ => false
  | .generic o args => refFree o && refFreeList args
  | .pylist xs => refFreeList xs
  | _ => true

def refFreeList : List Ann → Bool
  | [] => true
  | a :: rest => refFree a && refFreeList rest

end

/-- All fields of a record are reference-free. -/
def fieldsRefFree (fields : List (String × Ann)) : Bool :=
  fields.all fun f => refFree f.2

/-- The registered body of a heap object is reference-free (and the
object exists and has the shape its registry expects). -/
def bodyRefFree (env : Env) (id : Nat) : Bool :=
  match envGet env id with
  | some (.newtype _ _ _ sup) => refFree sup
  | some (.talias _ v) => refFree v
  | some (.model _ _ _ fields) => fieldsRefFree fields
  | some (.dclass _ _ _ fields) => fieldsRefFree fields
  | none => false

/-- All name-to-id registrations of a state, across the four registries. -/
def regPairs (st : GenState) : List (String × Nat) :=
  st.newTypes ++ st.typeAliases ++ st.baseModels ++ st.dataclasses

/-- The block `emit_named` would append for a candidate name, read off
the registries: the registries are consulted in the source's order, the
skip set applies exactly to the model branch, and a name in no registry
produces nothing.  (Used to characterise `renderCustomDefs` when no
registered definition references another named type.) -/
def renderOneDef (env : Env) (st : GenState) (skip : List String) (name : String) :
    Option String :=
  match dlookup st.newTypes name with
  | some id =>
      match envGet env id with
      | some (.newtype _ _ _ sup) =>
          some (name ++ " = NewType(\"" ++ name ++ "\", " ++ stubText env sup ++ ")")
      | _ => none
  | none =>
  match dlookup st.typeAliases name with
  | some id =>
      match envGet env id with
      | some (.talias _ v) => some (name ++ " = " ++ stubText env v)
      | _ => none
  | none =>
  match dlookup st.baseModels name with
  | some id =>
      if memStr name skip then none
      else
        match envGet env id with
        | some (.model _ _ nm fields) => some (modelStubText env nm fields)
        | _ => none
  | none =>
  match dlookup st.dataclasses name with
  | some id =>
      match envGet env id with
      | some (.dclass _ _ nm fields) => some (dataclassStubText env nm fields)
      | _ => none
  | none => none

/-! ## Concrete scenarios

Heap objects and requests used by the scenario claims.  `intC`/`strC`
are the builtin classes `int` and `str`. -/

def intC : Ann := .plainClass "builtins" "int" "int"

def strC : Ann := .plainClass "builtins" "str" "str"

/-- The heap of the worked example (spec §4.2 / §8, and the repository's
own `tests/unit/test_stubs.py`): input schema `{count: int, name: str}`,
output schema `{total: int}`. -/
def envC1 : Env :=
  [(1, .model "tests.unit.test_stubs" "InModel" "InModel" [("count", intC), ("name", strC)]),
   (2, .model "tests.unit.test_stubs" "OutModel" "OutModel" [("total", intC)])]

/-- The tool `add(a: int, b: int) -> int`. -/
def addTool : Tool :=
  ⟨"add", 7,
   [⟨"a", .positionalOrKeyword, intC, none⟩, ⟨"b", .positionalOrKeyword, intC, none⟩],
   intC⟩

def reqC1 : Request := ⟨1, some 2, [addTool]⟩

/-- What the code actually renders for the worked example: TWO blank
lines between the header and the input block (the repository's own unit
test asserts exactly this text). -/
def c1Actual : String :=
  "from typing import TypedDict\n\n\nclass InModel(TypedDict):\n    count: int\n    name: str\n\nclass OutModel(TypedDict):\n    total: int\n\ndef add(a: int, b: int) -> int: ...\n"

/-- The text the claim describes: header, ONE blank line, input block,
blank, output block, blank, tool line, one trailing newline. -/
def c1Claimed : String :=
  "from typing import TypedDict\n\nclass InModel(TypedDict):\n    count: int\n    name: str\n\nclass OutModel(TypedDict):\n    total: int\n\ndef add(a: int, b: int) -> int: ...\n"

/-- Two distinct model classes that share the identity string `m.M`
(in Python: a class `M` is redefined, and both objects are alive).  Their
requests have equal cache keys but different uncached renderings. -/
def envC2 : Env :=
  [(1, .model "m" "M" "M" [("x", intC)]),
   (2, .model "m" "M" "M" [("y", strC)])]

def reqM1 : Request := ⟨1, none, []⟩

def reqM2 : Request := ⟨2, none, []⟩

def tM1 : String := "from typing import TypedDict\n\n\nclass M(TypedDict):\n    x: int\n"

def tM2 : String := "from typing import TypedDict\n\n\nclass M(TypedDict):\n    y: str\n"

/-- One model, one tool; the two requests differ only in the tool's
object identity. -/
def envC3 : Env := [(1, .model "m" "M" "M" [("x", intC)])]

def fTool (oid : Nat) : Tool :=
  ⟨"f", oid, [⟨"a", .positionalOrKeyword, intC, none⟩], intC⟩

def reqT1 : Request := ⟨1, none, [fTool 10]⟩

def reqT2 : Request := ⟨1, none, [fTool 99]⟩

def tC3 : String :=
  "from typing import TypedDict\n\n\nclass M(TypedDict):\n    x: int\n\ndef f(a: int) -> int: ...\n"

/-- A self-referential schema: model `M` has a field annotated with `M`
itself (in Python: `class M(BaseModel): next: "M"` after resolution). -/
def envC4 : Env := [(1, .model "m" "M" "M" [("next", .ref 1)])]

def reqC4 : Request := ⟨1, none, []⟩

/-- A tool with an unannotated parameter: `def f(x): ...` typed as
returning `int`. -/
def envC5 : Env := [(1, .model "m" "M" "M" [("value", intC)])]

def reqC5 : Request :=
  ⟨1, none, [⟨"f", 3, [⟨"x", .positionalOrKeyword, .empty, none⟩], intC⟩]⟩

def tC5 : String :=
  "from typing import TypedDict\n\n\nclass M(TypedDict):\n    value: int\n\ndef f(x: Any) -> int: ...\n"

/-- A type alias `AA` whose value is the new-type `ZZ`: the alias's
dependency sorts after it alphabetically. -/
def envC6 : Env :=
  [(1, .model "m" "M" "M" [("f", .ref 2)]),
   (2, .talias "AA" (.ref 3)),
   (3, .newtype "m" "ZZ" "ZZ" intC)]

def reqC6 : Request := ⟨1, none, []⟩

/-- The actual output: the dependency `ZZ` is emitted before `AA` even
though `AA` sorts first. -/
def tC6 : String :=
  "from typing import TypedDict, NewType\n\n\nZZ = NewType(\"ZZ\", int)\n\nAA = ZZ\n\nclass M(TypedDict):\n    f: AA\n"

/-- The same text with the two definitions in name-sorted order, as the
claim demands. -/
def tC6Sorted : String :=
  "from typing import TypedDict, NewType\n\n\nAA = ZZ\n\nZZ = NewType(\"ZZ\", int)\n\nclass M(TypedDict):\n    f: AA\n"

/-- Heap for the `c6_amended` witness: two independent definitions, the
new-type `BBB` and the alias `AAA`. -/
def envW6 : Env :=
  [(21, .newtype "m" "BBB" "BBB" intC), (22, .talias "AAA" strC)]

/-- A discovery state with the two independent definitions registered. -/
def stW6 : GenState := ⟨false, false, [("BBB", 21)], [("AAA", 22)], [], []⟩

/-- The new-type `UserId` occurring only inside the parameter list of a
`Callable` annotation: `class M(BaseModel): f: Callable[[UserId], int]`. -/
def envC8 : Env :=
  [(1, .model "m" "M" "M" [("f", .generic (.builtin .bcallable) [.pylist [.ref 2], intC])]),
   (2, .newtype "m" "UserId" "UserId" intC)]

def reqC8 : Request := ⟨1, none, []⟩

/-- The actual output: `UserId` is referenced by name but never declared,
and neither `NewType` nor `Callable` (nor `Any`) reaches the import line. -/
def tC8 : String :=
  "from typing import TypedDict\n\n\nclass M(TypedDict):\n    f: Callable[[UserId], int]\n"

/-! ## Theorems -/

set_option maxRecDepth 40000 in
/-- C1: the claim asserts exactly one blank line between the header
(import) line and the input-schema block.  The code writes `"\n\n\n"` after
the header (line 158), i.e. TWO blank lines, so the claimed exact text is
not what `generate` returns; the repository's own
`test_stub_generator_is_deterministic` asserts the two-blank-line text. -/
theorem c1_counterexample :
    (generate envC1 60 [] reqC1).map (·.1) = some c1Actual ∧ c1Actual ≠ c1Claimed :=
  ⟨by decide, by decide⟩

set_option maxRecDepth 40000 in
/-- C1 (amended): for the worked example, `generate` returns exactly the
header import line, TWO blank lines, the input-schema block, one blank
line, the output-schema block, one blank line, the tool signature line,
and exactly one trailing newline. -/
theorem c1_amended : (generate envC1 60 [] reqC1).map (·.1) = some c1Actual := by
  decide

set_option maxRecDepth 40000 in
/-- C2: the claim ("generate with the cache enabled returns text
byte-identical to what the uncached renderer produces for that request")
fails when two structurally different requests share a cache key.  Here
two distinct model classes both have identity `m.M`; after the first
request is rendered and stored, the second request hits the first one's
entry and returns `tM1`, while its own uncached rendering is `tM2`. -/
theorem c2_counterexample :
    ((generate envC2 60 [] reqM1).bind fun o1 =>
        (generate envC2 60 o1.2.1 reqM2).map (·.1)) = some tM1
    ∧ generateUncached envC2 60 reqM2 = some tM2
    ∧ tM1 ≠ tM2 :=
  ⟨by decide, by decide, by decide⟩

/-- C2 (amended): provided every cache entry stored under the request's
key equals the request's own uncached rendering (true whenever the key
was stored by a structurally identical request), `generate` returns text
byte-identical to the uncached renderer's output; and on a hit it
returns the stored text unchanged without invoking the renderer. -/
theorem c2_amended (env : Env) (fuel : Nat) (c : Cache) (r : Request)
    (hc : ∀ v, lookupCache c (cacheKey env r) = some v →
        generateUncached env fuel r = some v) :
    (∀ out, generate env fuel c r = some out → generateUncached env fuel r = some out.1)
    ∧ (∀ v, lookupCache c (cacheKey env r) = some v →
        generate env fuel c r = some (v, c, false)) := by
  constructor
  · intro out hout
    unfold generate at hout
    revert hout
    cases hl : lookupCache c (cacheKey env r) with
    | some v =>
        intro hout
        cases hout
        exact hc v hl
    | none =>
        intro hout
        simp only [Option.map_eq_some'] at hout
        obtain ⟨t, ht, rfl⟩ := hout
        exact ht
  · intro v hv
    simp [generate, hv]

set_option maxRecDepth 40000 in
/-- C2 (witness): with the empty cache the side condition is vacuous, and
`generate` on the first C2 request returns exactly its uncached text. -/
theorem c2_witness : generateUncached envC2 60 reqM1 = some tM1 := by
  have h1 : (generate envC2 60 [] reqM1).map (·.1) = some tM1 := by decide
  obtain ⟨out, hout, hfst⟩ := Option.map_eq_some'.mp h1
  have h2 := (c2_amended envC2 60 [] reqM1 (fun v hv => Option.noConfusion hv)).1 out hout
  rw [h2, hfst]

/-- `_tool_fingerprint` reads only the name, parameters and return
annotation of a tool - never its object identity. -/
theorem toolFingerprint_congr (env : Env) (t1 t2 : Tool) (hn : t1.name = t2.name)
    (hp : t1.params = t2.params) (hr : t1.ret = t2.ret) :
    toolFingerprint env t1 = toolFingerprint env t2 := by
  cases t1
  cases t2
  cases hn
  cases hp
  cases hr
  rfl

/-- C3: structurally identical requests (equal input-schema identity
strings, equal output-schema identities or both absent, tools pairwise
equal in name, parameters - that is, parameter names, kinds, annotations
and default reprs - and return annotation) produce equal cache keys, no
matter what the tool objects' identities are; and any two consecutive
`generate` calls whose keys are equal return the same text. -/
theorem c3_structural_key_stability (env : Env) (fuel fuel2 : Nat) (c : Cache)
    (r1 r2 : Request)
    (hin : modelIdentity env (some r1.inputModel) = modelIdentity env (some r2.inputModel))
    (hout : modelIdentity env r1.outputModel = modelIdentity env r2.outputModel)
    (htools : List.Forall₂
        (fun t1 t2 : Tool => t1.name = t2.name ∧ t1.params = t2.params ∧ t1.ret = t2.ret)
        r1.tools r2.tools) :
    cacheKey env r1 = cacheKey env r2
    ∧ (∀ t1 c1 b1 out2, generate env fuel c r1 = some (t1, c1, b1) →
        generate env fuel2 c1 r2 = some out2 → out2.1 = t1) := by
  have aux : ∀ (l1 l2 : List Tool),
      List.Forall₂
        (fun t1 t2 : Tool => t1.name = t2.name ∧ t1.params = t2.params ∧ t1.ret = t2.ret)
        l1 l2 →
      l1.map (toolFingerprint env) = l2.map (toolFingerprint env) := by
    intro l1 l2 h
    induction h with
    | nil => rfl
    | cons h _ ih =>
        simp only [List.map_cons, ih, List.cons.injEq, and_true]
        exact toolFingerprint_congr env _ _ h.1 h.2.1 h.2.2
  have hkey : cacheKey env r1 = cacheKey env r2 := by
    unfold cacheKey
    rw [hin, hout, aux _ _ htools]
  refine ⟨hkey, ?_⟩
  intro t1 c1 b1 out2 h1 h2
  unfold generate at h1 h2
  rw [← hkey] at h2
  revert h1
  cases hl : lookupCache c (cacheKey env r1) with
  | some t =>
      intro h1
      cases h1
      rw [hl] at h2
      cases h2
      rfl
  | none =>
      intro h1
      simp only [Option.map_eq_some'] at h1
      obtain ⟨t, _, heq⟩ := h1
      cases heq
      simp only [lookupCache, if_pos rfl] at h2
      cases h2
      rfl

set_option maxRecDepth 40000 in
/-- C3 (witness): the two concrete requests differ only in the tool's
object identity; their keys are equal and two consecutive calls return
the same text. -/
theorem c3_witness :
    cacheKey envC3 reqT1 = cacheKey envC3 reqT2
    ∧ ((generate envC3 60 [] reqT1).bind fun o1 =>
        (generate envC3 60 o1.2.1 reqT2).map (·.1)) = some tC3 :=
  ⟨(c3_structural_key_stability envC3 60 60 [] reqT1 reqT2 rfl rfl
      (.cons ⟨rfl, rfl, rfl⟩ .nil)).1,
   by decide⟩

/-- `_collect_annotation` on the self-referential model `M` registers `M`
and unconditionally recurses into `M`'s fields (lines 315-317, with no
already-registered check), meeting `M` again: the walk exhausts any
recursion budget. -/
theorem collectAnn_c4_diverges :
    ∀ (n : Nat) (st : GenState), collectAnn envC4 n (.ref 1) st = none := by
  intro n
  induction n using Nat.strong_induction_on with
  | _ n ih =>
    match n with
    | 0 => intro st; rfl
    | 1 => intro st; rfl
    | m + 2 =>
        intro st
        have hm := ih m (by omega)
        show (collectAnn envC4 m (.ref 1) _).bind _ = none
        rw [hm]
        rfl

/-- C4: on the self-referential schema (`class M(BaseModel): next: M`)
the generator does NOT terminate: for every recursion budget the
collection walk runs out of fuel (in Python, `generate` hits unbounded
recursion and RecursionError).  Contrary to the claim, registration does
not de-duplicate by name before recursing into a name's own body - there
is no already-registered check in `_collect_annotation`, and
`emit_named` adds a name to `emitted` only after walking its body. -/
theorem c4_divergence : ∀ (n : Nat), generateUncached envC4 n reqC4 = none := by
  intro n
  have h : collectModelAnns envC4 n 1 GenState.initial = none := by
    match n with
    | 0 => rfl
    | m + 1 =>
        show (collectAnn envC4 m (.ref 1) _).bind _ = none
        rw [collectAnn_c4_diverges]
        rfl
  show ((collectModelAnns envC4 n 1 GenState.initial).bind _).bind _ = none
  rw [h]
  rfl

set_option maxRecDepth 40000 in
/-- C5: for the tool `f(x) -> int` whose parameter has no annotation, the
collection walk returns without setting the dynamic flag
(`_collect_annotation` line 297-298 returns on `Signature.empty` without
touching `_uses_any`), so the import line - computed from the
post-collection state, before any rendering - is `from typing import
TypedDict`; yet the tool line renders the parameter as `x: Any` (the flag
is set only during rendering, line 335-337, after the header was
written).  The claim (and spec §4.1 rule 1 plus the §8 scenario) requires
`Any` in the header; the emitted stub references `Any` without importing
it. -/
theorem c5_header_misses_dynamic_import :
    (collectPhase envC5 60 reqC5).map importNames = some ["TypedDict"]
    ∧ generateUncached envC5 60 reqC5 = some tC5 :=
  ⟨by decide, by decide⟩

set_option maxRecDepth 40000 in
/-- C8: a new-type occurring only inside a `Callable` parameter list is
never collected (`_collect_annotation` iterates `get_args`, and for a
subscripted `Callable` the first argument is a Python *list* of
annotations, which matches no branch and is not descended into), so the
collection phase discovers nothing at all; the rendered output references
`UserId` by bare name but contains no `UserId = NewType(...)` definition
(and imports neither `NewType` nor `Callable`). -/
theorem c8_hidden_newtype_dropped :
    collectPhase envC8 60 reqC8 = some GenState.initial
    ∧ generateUncached envC8 60 reqC8 = some tC8 :=
  ⟨by decide, by decide⟩

set_option maxRecDepth 40000 in
/-- C6: the claim asserts the auxiliary definitions appear in name-sorted
order across the four registries.  The emitter walks the name-sorted
candidate list but emits each name's not-yet-emitted dependencies first
(`emit_named` lines 212-242), so the new-type `ZZ` - the dependency of
the alias `AA` - is emitted before `AA` although `"AA" < "ZZ"`. -/
theorem c6_counterexample :
    generateUncached envC6 60 reqC6 = some tC6
    ∧ ((collectPhase envC6 60 reqC6).bind fun st =>
        (renderCustomDefs envC6 60 ["M", ""] st).map (·.1))
        = some ["ZZ = NewType(\"ZZ\", int)", "AA = ZZ"]
    ∧ strLe "ZZ" "AA" = false
    ∧ tC6 ≠ tC6Sorted :=
  ⟨by decide, by decide, by decide, by decide⟩

/-! ### State-independence of rendered text

`_annotation_to_stub` writes to the discovery state (flags and
registries) but its returned TEXT never reads it, so the text component
is a pure function of the annotation.  This is the determinism backbone
behind the union, field-order and auxiliary-block characterisations. -/

/-- Helper: state-independence of the rendered text for the
`tuple[T, ...]` shape, abstracted over the one-step unfoldings (each
discharged by `rfl` at a concrete argument shape). -/
theorem tuple_ellipsis_aux (env : Env) (a0 : Ann) (st st' : GenState)
    (hst : (annotToStub env (.generic (.builtin .btuple) [a0, .ellipsisO]) st).1
        = "tuple[" ++ (annotToStub env a0 (stubArgs env [a0, .ellipsisO] st).2).1 ++ ", ...]")
    (hst' : (annotToStub env (.generic (.builtin .btuple) [a0, .ellipsisO]) st').1
        = "tuple[" ++ (annotToStub env a0 (stubArgs env [a0, .ellipsisO] st').2).1 ++ ", ...]")
    (h0 : (annotToStub env a0 (stubArgs env [a0, .ellipsisO] st).2).1
        = (annotToStub env a0 (stubArgs env [a0, .ellipsisO] st').2).1) :
    (annotToStub env (.generic (.builtin .btuple) [a0, .ellipsisO]) st).1
      = (annotToStub env (.generic (.builtin .btuple) [a0, .ellipsisO]) st').1 := by
  rw [hst, hst', h0]

/-- Helper: state-independence for the general `tuple[...]` shape. -/
theorem tuple_general_aux (env : Env) (l : List Ann) (st st' : GenState)
    (hst : (annotToStub env (.generic (.builtin .btuple) l) st).1
        = (if (stubArgs env l st).1.isEmpty then "tuple[Any, ...]"
           else "tuple[" ++ String.intercalate ", " (stubArgs env l st).1 ++ "]"))
    (hst' : (annotToStub env (.generic (.builtin .btuple) l) st').1
        = (if (stubArgs env l st').1.isEmpty then "tuple[Any, ...]"
           else "tuple[" ++ String.intercalate ", " (stubArgs env l st').1 ++ "]"))
    (hargs : (stubArgs env l st).1 = (stubArgs env l st').1) :
    (annotToStub env (.generic (.builtin .btuple) l) st).1
      = (annotToStub env (.generic (.builtin .btuple) l) st').1 := by
  rw [hst, hst', hargs]

/-- Helper: state-independence for `Callable[..., R]`. -/
theorem callable_ellipsis_aux (env : Env) (p r : Ann) (st st' : GenState)
    (hst : (annotToStub env (.generic (.builtin .bcallable) [p, r]) st).1
        = "Callable[..., "
          ++ (annotToStub env r
              { (stubArgs env [p, r] st).2 with usesCallable := true }).1 ++ "]")
    (hst' : (annotToStub env (.generic (.builtin .bcallable) [p, r]) st').1
        = "Callable[..., "
          ++ (annotToStub env r
              { (stubArgs env [p, r] st').2 with usesCallable := true }).1 ++ "]")
    (hr : (annotToStub env r { (stubArgs env [p, r] st).2 with usesCallable := true }).1
        = (annotToStub env r { (stubArgs env [p, r] st').2 with usesCallable := true }).1) :
    (annotToStub env (.generic (.builtin .bcallable) [p, r]) st).1
      = (annotToStub env (.generic (.builtin .bcallable) [p, r]) st').1 := by
  rw [hst, hst', hr]

/-- Helper: state-independence for `Callable[[...], R]`. -/
theorem callable_pylist_aux (env : Env) (ps : List Ann) (r : Ann) (st st' : GenState)
    (hst : (annotToStub env (.generic (.builtin .bcallable) [.pylist ps, r]) st).1
        = "Callable[["
          ++ String.intercalate ", "
              (stubListAll env ps
                { (stubArgs env [Ann.pylist ps, r] st).2 with usesCallable := true }).1
          ++ "], "
          ++ (annotToStub env r
              (stubListAll env ps
                { (stubArgs env [Ann.pylist ps, r] st).2 with usesCallable := true }).2).1
          ++ "]")
    (hst' : (annotToStub env (.generic (.builtin .bcallable) [.pylist ps, r]) st').1
        = "Callable[["
          ++ String.intercalate ", "
              (stubListAll env ps
                { (stubArgs env [Ann.pylist ps, r] st').2 with usesCallable := true }).1
          ++ "], "
          ++ (annotToStub env r
              (stubListAll env ps
                { (stubArgs env [Ann.pylist ps, r] st').2 with usesCallable := true }).2).1
          ++ "]")
    (hps : (stubListAll env ps
            { (stubArgs env [Ann.pylist ps, r] st).2 with usesCallable := true }).1
        = (stubListAll env ps
            { (stubArgs env [Ann.pylist ps, r] st').2 with usesCallable := true }).1)
    (hr : (annotToStub env r
            (stubListAll env ps
              { (stubArgs env [Ann.pylist ps, r] st).2 with usesCallable := true }).2).1
        = (annotToStub env r
            (stubListAll env ps
              { (stubArgs env [Ann.pylist ps, r] st').2 with usesCallable := true }).2).1) :
    (annotToStub env (.generic (.builtin .bcallable) [.pylist ps, r]) st).1
      = (annotToStub env (.generic (.builtin .bcallable) [.pylist ps, r]) st').1 := by
  rw [hst, hst', hps, hr]

/-- Helper: state-independence for a generic with an unrecognised origin
(`origin_name[args]`, lines 406-407). -/
theorem origin_general_aux (env : Env) (o : Ann) (l : List Ann) (st st' : GenState)
    (hst : (annotToStub env (.generic o l) st).1
        = (if (stubArgs env l st).1.isEmpty
           then (annotToStub env o (stubArgs env l st).2).1
           else (annotToStub env o (stubArgs env l st).2).1 ++ "["
             ++ String.intercalate ", " (stubArgs env l st).1 ++ "]"))
    (hst' : (annotToStub env (.generic o l) st').1
        = (if (stubArgs env l st').1.isEmpty
           then (annotToStub env o (stubArgs env l st').2).1
           else (annotToStub env o (stubArgs env l st').2).1 ++ "["
             ++ String.intercalate ", " (stubArgs env l st').1 ++ "]"))
    (hargs : (stubArgs env l st).1 = (stubArgs env l st').1)
    (ho : (annotToStub env o (stubArgs env l st).2).1
        = (annotToStub env o (stubArgs env l st').2).1) :
    (annotToStub env (.generic o l) st).1 = (annotToStub env (.generic o l) st').1 := by
  rw [hst, hst', hargs, ho]

/-- Helper: state-independence for the single-argument containers. -/
theorem container_aux (env : Env) (kw : String) (a : Ann) (l : List Ann) (st st' : GenState)
    (hst : (annotToStub env a st).1
        = kw ++ "[" ++ (stubArgs env l st).1.headD "Any" ++ "]")
    (hst' : (annotToStub env a st').1
        = kw ++ "[" ++ (stubArgs env l st').1.headD "Any" ++ "]")
    (hargs : (stubArgs env l st).1 = (stubArgs env l st').1) :
    (annotToStub env a st).1 = (annotToStub env a st').1 := by
  rw [hst, hst', hargs]

set_option maxHeartbeats 3200000 in
mutual

theorem annotToStub_fst_const (env : Env) :
    ∀ (a : Ann) (st st' : GenState), (annotToStub env a st).1 = (annotToStub env a st').1
  | .empty, _, _ => rfl
  | .anyT, _, _ => rfl
  | .noneT, _, _ => rfl
  | .ellipsisO, _, _ => rfl
  | .unionO, _, _ => rfl
  | .builtin _, _, _ => rfl
  | .ref id, st, st' => by
      show (match envGet env id with
        | some (.newtype _ _ n _) => (n, { st with newTypes := dinsert st.newTypes n id })
        | some (.talias n _) => (n, { st with typeAliases := dinsert st.typeAliases n id })
        | some (.model _ _ n _) => (n, { st with baseModels := dinsert st.baseModels n id })
        | some (.dclass _ _ n _) => (n, { st with dataclasses := dinsert st.dataclasses n id })
        | none => ("<dangling>", st)).1
        = (match envGet env id with
        | some (.newtype _ _ n _) => (n, { st' with newTypes := dinsert st'.newTypes n id })
        | some (.talias n _) => (n, { st' with typeAliases := dinsert st'.typeAliases n id })
        | some (.model _ _ n _) => (n, { st' with baseModels := dinsert st'.baseModels n id })
        | some (.dclass _ _ n _) => (n, { st' with dataclasses := dinsert st'.dataclasses n id })
        | none => ("<dangling>", st')).1
      cases envGet env id with
      | none => rfl
      | some d => cases d <;> rfl
  | .plainClass _ _ _, _, _ => rfl
  | .other _ _, _, _ => rfl
  | .pylist _, _, _ => rfl
  | .generic .unionO args, st, st' => by
      show String.intercalate " | " (unionCanon (stubListAll env args st).1)
          = String.intercalate " | " (unionCanon (stubListAll env args st').1)
      rw [stubListAll_fst_const env args st st']
  | .generic (.builtin .blist) args, st, st' =>
      container_aux env "list" _ args st st' rfl rfl (stubArgs_fst_const env args st st')
  | .generic (.builtin .bset) args, st, st' =>
      container_aux env "set" _ args st st' rfl rfl (stubArgs_fst_const env args st st')
  | .generic (.builtin .bfrozenset) args, st, st' =>
      container_aux env "frozenset" _ args st st' rfl rfl (stubArgs_fst_const env args st st')
  | .generic (.builtin .bdict) args, st, st' => by
      show "dict[" ++ ((stubArgs env args st).1.get? 0).getD "Any" ++ ", "
            ++ ((stubArgs env args st).1.get? 1).getD "Any" ++ "]"
          = "dict[" ++ ((stubArgs env args st').1.get? 0).getD "Any" ++ ", "
            ++ ((stubArgs env args st').1.get? 1).getD "Any" ++ "]"
      rw [stubArgs_fst_const env args st st']
  | .generic (.builtin .btuple) args, st, st' => by
      rcases args with _ | ⟨a0, _ | ⟨a1, _ | ⟨a2, rest⟩⟩⟩
      · rfl
      · exact tuple_general_aux env [a0] st st' rfl rfl (stubArgs_fst_const env [a0] st st')
      · cases a1 with
        | ellipsisO =>
            exact tuple_ellipsis_aux env a0 st st' rfl rfl
              (annotToStub_fst_const env a0 (stubArgs env [a0, .ellipsisO] st).2
                (stubArgs env [a0, .ellipsisO] st').2)
        | empty =>
            exact tuple_general_aux env [a0, .empty] st st' rfl rfl
              (stubArgs_fst_const env [a0, .empty] st st')
        | anyT =>
            exact tuple_general_aux env [a0, .anyT] st st' rfl rfl
              (stubArgs_fst_const env [a0, .anyT] st st')
        | noneT =>
            exact tuple_general_aux env [a0, .noneT] st st' rfl rfl
              (stubArgs_fst_const env [a0, .noneT] st st')
        | unionO =>
            exact tuple_general_aux env [a0, .unionO] st st' rfl rfl
              (stubArgs_fst_const env [a0, .unionO] st st')
        | builtin b =>
            exact tuple_general_aux env [a0, .builtin b] st st' rfl rfl
              (stubArgs_fst_const env [a0, .builtin b] st st')
        | ref i =>
            exact tuple_general_aux env [a0, .ref i] st st' rfl rfl
              (stubArgs_fst_const env [a0, .ref i] st st')
        | plainClass m q n =>
            exact tuple_general_aux env [a0, .plainClass m q n] st st' rfl rfl
              (stubArgs_fst_const env [a0, .plainClass m q n] st st')
        | other s2 r2 =>
            exact tuple_general_aux env [a0, .other s2 r2] st st' rfl rfl
              (stubArgs_fst_const env [a0, .other s2 r2] st st')
        | pylist xs =>
            exact tuple_general_aux env [a0, .pylist xs] st st' rfl rfl
              (stubArgs_fst_const env [a0, .pylist xs] st st')
        | generic o2 a2 =>
            exact tuple_general_aux env [a0, .generic o2 a2] st st' rfl rfl
              (stubArgs_fst_const env [a0, .generic o2 a2] st st')
      · exact tuple_general_aux env (a0 :: a1 :: a2 :: rest) st st' rfl rfl
          (stubArgs_fst_const env (a0 :: a1 :: a2 :: rest) st st')
  | .generic (.builtin .bcallable) args, st, st' => by
      rcases args with _ | ⟨p, _ | ⟨r, _ | ⟨x, rest⟩⟩⟩
      · rfl
      · rfl
      · cases p with
        | ellipsisO =>
            exact callable_ellipsis_aux env .ellipsisO r st st' rfl rfl
              (annotToStub_fst_const env r
                { (stubArgs env [Ann.ellipsisO, r] st).2 with usesCallable := true }
                { (stubArgs env [Ann.ellipsisO, r] st').2 with usesCallable := true })
        | pylist ps =>
            exact callable_pylist_aux env ps r st st' rfl rfl
              (stubListAll_fst_const env ps
                { (stubArgs env [Ann.pylist ps, r] st).2 with usesCallable := true }
                { (stubArgs env [Ann.pylist ps, r] st').2 with usesCallable := true })
              (annotToStub_fst_const env r
                (stubListAll env ps
                  { (stubArgs env [Ann.pylist ps, r] st).2 with usesCallable := true }).2
                (stubListAll env ps
                  { (stubArgs env [Ann.pylist ps, r] st').2 with usesCallable := true }).2)
        | empty => rfl
        | anyT => rfl
        | noneT => rfl
        | unionO => rfl
        | builtin b => rfl
        | ref i => rfl
        | plainClass m q n => rfl
        | other s2 r2 => rfl
        | generic o2 a2 => rfl
      · rfl
  | .generic .empty args, st, st' =>
      origin_general_aux env .empty args st st' rfl rfl
        (stubArgs_fst_const env args st st') rfl
  | .generic .anyT args, st, st' =>
      origin_general_aux env .anyT args st st' rfl rfl
        (stubArgs_fst_const env args st st') rfl
  | .generic .noneT args, st, st' =>
      origin_general_aux env .noneT args st st' rfl rfl
        (stubArgs_fst_const env args st st') rfl
  | .generic .ellipsisO args, st, st' =>
      origin_general_aux env .ellipsisO args st st' rfl rfl
        (stubArgs_fst_const env args st st') rfl
  | .generic (.ref id) args, st, st' =>
      origin_general_aux env (.ref id) args st st' rfl rfl
        (stubArgs_fst_const env args st st')
        (annotToStub_fst_const env (.ref id) (stubArgs env args st).2 (stubArgs env args st').2)
  | .generic (.plainClass m q n) args, st, st' =>
      origin_general_aux env (.plainClass m q n) args st st' rfl rfl
        (stubArgs_fst_const env args st st') rfl
  | .generic (.other s r) args, st, st' =>
      origin_general_aux env (.other s r) args st st' rfl rfl
        (stubArgs_fst_const env args st st') rfl
  | .generic (.pylist xs) args, st, st' =>
      origin_general_aux env (.pylist xs) args st st' rfl rfl
        (stubArgs_fst_const env args st st') rfl
  | .generic (.generic o2 a2) args, st, st' =>
      origin_general_aux env (.generic o2 a2) args st st' rfl rfl
        (stubArgs_fst_const env args st st')
        (annotToStub_fst_const env (.generic o2 a2) (stubArgs env args st).2
          (stubArgs env args st').2)

theorem stubArgs_fst_const (env : Env) :
    ∀ (l : List Ann) (st st' : GenState), (stubArgs env l st).1 = (stubArgs env l st').1
  | [], _, _ => rfl
  | a :: rest, st, st' => by
      show (if a.isEllipsis = true then stubArgs env rest st
            else ((annotToStub env a st).1 :: (stubArgs env rest (annotToStub env a st).2).1,
              (stubArgs env rest (annotToStub env a st).2).2)).1
          = (if a.isEllipsis = true then stubArgs env rest st'
            else ((annotToStub env a st').1 :: (stubArgs env rest (annotToStub env a st').2).1,
              (stubArgs env rest (annotToStub env a st').2).2)).1
      cases hp : a.isEllipsis with
      | true =>
          rw [if_pos rfl, if_pos rfl]
          exact stubArgs_fst_const env rest st st'
      | false =>
          rw [if_neg Bool.false_ne_true, if_neg Bool.false_ne_true]
          show (annotToStub env a st).1 :: (stubArgs env rest (annotToStub env a st).2).1
              = (annotToStub env a st').1 :: (stubArgs env rest (annotToStub env a st').2).1
          rw [annotToStub_fst_const env a st st',
              stubArgs_fst_const env rest (annotToStub env a st).2 (annotToStub env a st').2]

theorem stubListAll_fst_const (env : Env) :
    ∀ (l : List Ann) (st st' : GenState), (stubListAll env l st).1 = (stubListAll env l st').1
  | [], _, _ => rfl
  | a :: rest, st, st' => by
      show (annotToStub env a st).1 :: (stubListAll env rest (annotToStub env a st).2).1
          = (annotToStub env a st').1 :: (stubListAll env rest (annotToStub env a st').2).1
      rw [annotToStub_fst_const env a st st',
          stubListAll_fst_const env rest (annotToStub env a st).2 (annotToStub env a st').2]

end

/-- The rendered field lines are exactly one line per declared field, in
declaration order, each `    name: text`. -/
theorem fieldLinesOf_fst (env : Env) :
    ∀ (fields : List (String × Ann)) (st : GenState),
      (fieldLinesOf env fields st).1
        = fields.map fun f => "    " ++ f.1 ++ ": " ++ stubText env f.2
  | [], _ => rfl
  | (n, a) :: rest, st => by
      show ("    " ++ n ++ ": " ++ (annotToStub env a st).1)
            :: (fieldLinesOf env rest (annotToStub env a st).2).1
          = ("    " ++ n ++ ": " ++ stubText env a)
            :: rest.map fun f => "    " ++ f.1 ++ ": " ++ stubText env f.2
      rw [annotToStub_fst_const env a st GenState.initial,
          fieldLinesOf_fst env rest (annotToStub env a st).2]
      rfl

/-- C9: in every structured-record block (`_model_stub`, used for the
input schema, the output schema and auxiliary records) and every
fixed-field-record block (`_dataclass_stub`), the field lines appear in
exactly the type's own field declaration order - one line per field, in
order, never sorted. -/
theorem c9_field_order (env : Env) (name : String) (fields : List (String × Ann))
    (st : GenState) (h : fields ≠ []) :
    (modelStubLines env name fields st).1
      = ("class " ++ name ++ "(TypedDict):")
          :: (fields.map fun f => "    " ++ f.1 ++ ": " ++ stubText env f.2)
    ∧ (dataclassStubLines env name fields st).1
      = ("class " ++ name ++ ":")
          :: (fields.map fun f => "    " ++ f.1 ++ ": " ++ stubText env f.2) := by
  have hmap := fieldLinesOf_fst env fields st
  have hne : ((fieldLinesOf env fields st).1).length ≠ 0 := by
    rw [hmap, List.length_map]
    exact fun hlen => h (List.eq_nil_of_length_eq_zero hlen)
  constructor
  · show (if (("class " ++ name ++ "(TypedDict):") :: (fieldLinesOf env fields st).1).length = 1
        then _ else _) = _
    rw [if_neg (by simp only [List.length_cons]; omega)]
    rw [hmap]
  · show (if (("class " ++ name ++ ":") :: (fieldLinesOf env fields st).1).length = 1
        then _ else _) = _
    rw [if_neg (by simp only [List.length_cons]; omega)]
    rw [hmap]

/-- C9 (witness): a two-field record whose declaration order is the
reverse of alphabetical order renders its field lines in declaration
order. -/
theorem c9_witness :
    (modelStubLines [] "M" [("zz", intC), ("aa", strC)] GenState.initial).1
      = ["class M(TypedDict):", "    zz: int", "    aa: str"]
    ∧ (dataclassStubLines [] "M" [("zz", intC), ("aa", strC)] GenState.initial).1
      = ["class M:", "    zz: int", "    aa: str"] := by
  have h := c9_field_order [] "M" [("zz", intC), ("aa", strC)] GenState.initial
    (List.cons_ne_nil _ _)
  exact ⟨h.1.trans (by rfl), h.2.trans (by rfl)⟩

/-- C10: a structured-record or fixed-field-record type with zero fields
renders as the class header followed by a single indented `pass` line. -/
theorem c10_empty_record_pass (env : Env) (name : String) (st : GenState) :
    (modelStubLines env name [] st).1 = ["class " ++ name ++ "(TypedDict):", "    pass"]
    ∧ (dataclassStubLines env name [] st).1 = ["class " ++ name ++ ":", "    pass"] :=
  ⟨rfl, rfl⟩

/-! ### The union canonicalisation (C7) -/

theorem charEq_of_toNat : ∀ (c d : Char), c.toNat = d.toNat → c = d := by
  intro c d h
  cases c
  cases d
  simp only [Char.toNat] at h
  congr 1
  exact UInt32.toNat.inj h

theorem charListLe_total : ∀ (l1 l2 : List Char), charListLe l1 l2 = true ∨ charListLe l2 l1 = true
  | [], [] => .inl rfl
  | [], _ :: _ => .inl rfl
  | _ :: _, [] => .inr rfl
  | c :: cs, d :: ds => by
      simp only [charListLe]
      rcases Nat.lt_trichotomy c.toNat d.toNat with h | h | h
      · left
        rw [if_pos h]
      · rw [if_neg (show ¬ c.toNat < d.toNat by omega),
            if_neg (show ¬ d.toNat < c.toNat by omega),
            if_neg (show ¬ d.toNat < c.toNat by omega),
            if_neg (show ¬ c.toNat < d.toNat by omega)]
        exact charListLe_total cs ds
      · right
        rw [if_pos h]

theorem charListLe_antisymm : ∀ {l1 l2 : List Char},
    charListLe l1 l2 = true → charListLe l2 l1 = true → l1 = l2
  | [], [], _, _ => rfl
  | [], _ :: _, _, h2 => by
      simp only [charListLe] at h2
      exact absurd h2 (by decide)
  | _ :: _, [], h1, _ => by
      simp only [charListLe] at h1
      exact absurd h1 (by decide)
  | c :: cs, d :: ds, h1, h2 => by
      simp only [charListLe] at h1 h2
      rcases Nat.lt_trichotomy c.toNat d.toNat with h | h | h
      · rw [if_neg (show ¬ d.toNat < c.toNat by omega), if_pos h] at h2
        exact absurd h2 (by decide)
      · rw [if_neg (show ¬ c.toNat < d.toNat by omega),
            if_neg (show ¬ d.toNat < c.toNat by omega)] at h1
        rw [if_neg (show ¬ d.toNat < c.toNat by omega),
            if_neg (show ¬ c.toNat < d.toNat by omega)] at h2
        rw [charEq_of_toNat c d h, charListLe_antisymm h1 h2]
      · rw [if_neg (show ¬ c.toNat < d.toNat by omega), if_pos h] at h1
        exact absurd h1 (by decide)

theorem charListLe_trans : ∀ {l1 l2 l3 : List Char},
    charListLe l1 l2 = true → charListLe l2 l3 = true → charListLe l1 l3 = true
  | [], _, _, _, _ => rfl
  | _ :: _, [], _, h1, _ => by
      simp only [charListLe] at h1
      exact absurd h1 (by decide)
  | _ :: _, _ :: _, [], _, h2 => by
      simp only [charListLe] at h2
      exact absurd h2 (by decide)
  | c :: cs, d :: ds, e :: es, h1, h2 => by
      simp only [charListLe] at h1 h2 ⊢
      rcases Nat.lt_trichotomy c.toNat d.toNat with hcd | hcd | hcd <;>
        rcases Nat.lt_trichotomy d.toNat e.toNat with hde | hde | hde
      · rw [if_pos (show c.toNat < e.toNat by omega)]
      · rw [if_pos (show c.toNat < e.toNat by omega)]
      · rw [if_neg (show ¬ d.toNat < e.toNat by omega), if_pos hde] at h2
        exact absurd h2 (by decide)
      · rw [if_pos (show c.toNat < e.toNat by omega)]
      · rw [if_neg (show ¬ c.toNat < d.toNat by omega),
            if_neg (show ¬ d.toNat < c.toNat by omega)] at h1
        rw [if_neg (show ¬ d.toNat < e.toNat by omega),
            if_neg (show ¬ e.toNat < d.toNat by omega)] at h2
        rw [if_neg (show ¬ c.toNat < e.toNat by omega),
            if_neg (show ¬ e.toNat < c.toNat by omega)]
        exact charListLe_trans h1 h2
      · rw [if_neg (show ¬ d.toNat < e.toNat by omega),
            if_pos (show e.toNat < d.toNat by omega)] at h2
        exact absurd h2 (by decide)
      · rw [if_neg (show ¬ c.toNat < d.toNat by omega),
            if_pos (show d.toNat < c.toNat by omega)] at h1
        exact absurd h1 (by decide)
      · rw [if_neg (show ¬ c.toNat < d.toNat by omega),
            if_pos (show d.toNat < c.toNat by omega)] at h1
        exact absurd h1 (by decide)
      · rw [if_neg (show ¬ c.toNat < d.toNat by omega),
            if_pos (show d.toNat < c.toNat by omega)] at h1
        exact absurd h1 (by decide)

theorem strLe_total (s t : String) : strLe s t = true ∨ strLe t s = true :=
  charListLe_total s.data t.data

theorem strLe_antisymm {s t : String} (h1 : strLe s t = true) (h2 : strLe t s = true) :
    s = t := by
  cases s
  cases t
  exact congrArg String.mk (charListLe_antisymm h1 h2)

theorem strLe_trans {s t u : String} (h1 : strLe s t = true) (h2 : strLe t u = true) :
    strLe s u = true :=
  charListLe_trans h1 h2

/-- The string order used by the canonicaliser, as a relation. -/
def strR (a b : String) : Prop := strLe a b = true

theorem memStr_iff : ∀ (l : List String) (x : String), memStr x l = true ↔ x ∈ l := by
  intro l x
  induction l with
  | nil => simp [memStr]
  | cons t rest ih =>
      simp only [memStr, List.mem_cons]
      by_cases h : x = t
      · simp [h]
      · simp only [if_neg h, ih]
        constructor
        · exact fun hm => .inr hm
        · rintro (rfl | hm)
          · exact absurd rfl h
          · exact hm

theorem insort_perm (s : String) : ∀ (l : List String), List.Perm (insortStr s l) (s :: l) := by
  intro l
  induction l with
  | nil => exact .refl _
  | cons t rest ih =>
      simp only [insortStr]
      by_cases h : strLe s t = true
      · rw [if_pos h]
      · rw [if_neg h]
        exact (ih.cons t).trans (List.Perm.swap s t rest)

theorem pySorted_perm : ∀ (l : List String), List.Perm (pySortedStr l) l
  | [] => .refl _
  | s :: rest => (insort_perm s (pySortedStr rest)).trans ((pySorted_perm rest).cons s)

theorem insort_sorted (s : String) :
    ∀ (l : List String), l.Pairwise strR → (insortStr s l).Pairwise strR := by
  intro l
  induction l with
  | nil => intro _; exact List.pairwise_singleton _ _
  | cons t rest ih =>
      intro h
      rcases List.pairwise_cons.mp h with ⟨ht, hrest⟩
      simp only [insortStr]
      by_cases hst : strLe s t = true
      · rw [if_pos hst]
        refine List.pairwise_cons.mpr ⟨?_, h⟩
        intro x hx
        rcases List.mem_cons.mp hx with rfl | hx
        · exact hst
        · exact strLe_trans hst (ht x hx)
      · rw [if_neg hst]
        refine List.pairwise_cons.mpr ⟨?_, ih hrest⟩
        intro x hx
        rcases List.mem_cons.mp ((insort_perm s rest).mem_iff.mp hx) with rfl | hx
        · rcases strLe_total t x with h' | h'
          · exact h'
          · exact absurd h' hst
        · exact ht x hx

theorem pySorted_sorted : ∀ (l : List String), (pySortedStr l).Pairwise strR
  | [] => List.Pairwise.nil
  | s :: rest => insort_sorted s (pySortedStr rest) (pySorted_sorted rest)

theorem pySorted_congr {l1 l2 : List String} (h : List.Perm l1 l2) :
    pySortedStr l1 = pySortedStr l2 := by
  haveI : IsAntisymm String strR := ⟨fun _ _ h1 h2 => strLe_antisymm h1 h2⟩
  exact List.eq_of_perm_of_sorted
    ((pySorted_perm l1).trans (h.trans (pySorted_perm l2).symm))
    (pySorted_sorted l1) (pySorted_sorted l2)

theorem dedupSeen_sublist : ∀ (l seen : List String), List.Sublist (dedupSeen seen l) l := by
  intro l
  induction l with
  | nil => intro _; exact .refl _
  | cons s rest ih =>
      intro seen
      simp only [dedupSeen]
      by_cases h : memStr s seen = true
      · rw [if_pos h]
        exact (ih seen).cons s
      · rw [if_neg h]
        exact (ih (s :: seen)).cons₂ s

theorem dedupSeen_nodup : ∀ (l seen : List String),
    (dedupSeen seen l).Nodup ∧ ∀ x ∈ dedupSeen seen l, memStr x seen = false := by
  intro l
  induction l with
  | nil => intro _; exact ⟨List.nodup_nil, by simp [dedupSeen]⟩
  | cons s rest ih =>
      intro seen
      simp only [dedupSeen]
      by_cases h : memStr s seen = true
      · rw [if_pos h]
        exact ih seen
      · rw [if_neg h]
        rcases ih (s :: seen) with ⟨hnd, hout⟩
        refine ⟨List.nodup_cons.mpr ⟨?_, hnd⟩, ?_⟩
        · intro hmem
          have := hout s hmem
          simp [memStr] at this
        · intro x hx
          rcases List.mem_cons.mp hx with rfl | hx
          · exact Bool.eq_false_iff.mpr h
          · have := hout x hx
            simp only [memStr] at this
            by_cases hxs : x = s
            · rw [if_pos hxs] at this
              exact absurd this (by decide)
            · rw [if_neg hxs] at this
              exact this

/-- Elements of the canonical union member list other than `"None"` are
exactly the deduplicated sorted non-`"None"` member texts. -/
theorem unionCanon_filter (rendered : List String) :
    (unionCanon rendered).filter (· ≠ "None")
      = dedupSeen [] (pySortedStr (rendered.filter (· ≠ "None"))) := by
  unfold unionCanon
  rw [List.filter_append]
  have h1 : (dedupSeen [] (pySortedStr (rendered.filter (· ≠ "None")))).filter (· ≠ "None")
      = dedupSeen [] (pySortedStr (rendered.filter (· ≠ "None"))) := by
    apply List.filter_eq_self.mpr
    intro x hx
    have hx2 : x ∈ pySortedStr (rendered.filter (· ≠ "None")) :=
      (dedupSeen_sublist _ _).subset hx
    have hx3 : x ∈ rendered.filter (· ≠ "None") :=
      (pySorted_perm _).mem_iff.mp hx2
    exact (List.mem_filter.mp hx3).2
  rw [h1]
  by_cases h : memStr "None" rendered = true
  · rw [if_pos h]
    simp
  · rw [if_neg h]
    simp

theorem memStr_congr {l1 l2 : List String} (x : String) (h : List.Perm l1 l2) :
    memStr x l1 = memStr x l2 := by
  by_cases hx : x ∈ l1
  · rw [(memStr_iff l1 x).mpr hx, (memStr_iff l2 x).mpr (h.mem_iff.mp hx)]
  · have h1 : memStr x l1 = false := by
      cases hm : memStr x l1 with
      | false => rfl
      | true => exact absurd ((memStr_iff l1 x).mp hm) hx
    have h2 : memStr x l2 = false := by
      cases hm : memStr x l2 with
      | false => rfl
      | true => exact absurd ((memStr_iff l2 x).mp hm) (fun hin => hx (h.mem_iff.mpr hin))
    rw [h1, h2]

/-- The canonical union member list depends only on the multiset of
member texts, not on their order. -/
theorem unionCanon_congr {l1 l2 : List String} (h : List.Perm l1 l2) :
    unionCanon l1 = unionCanon l2 := by
  unfold unionCanon
  rw [pySorted_congr (List.Perm.filter _ h), memStr_congr "None" h]

/-- The text list produced by rendering a Python list of annotations is
the pointwise canonical text of its members (the threaded discovery
state never influences the produced text). -/
theorem stubListAll_texts (env : Env) : ∀ (l : List Ann) (st : GenState),
    (stubListAll env l st).1 = l.map (stubText env) := by
  intro l
  induction l with
  | nil => intro _; rfl
  | cons a rest ih =>
      intro st
      show (annotToStub env a st).1 :: (stubListAll env rest (annotToStub env a st).2).1
          = stubText env a :: rest.map (stubText env)
      rw [annotToStub_fst_const env a st GenState.initial, ih _]
      rfl

theorem none_not_mem_ucFront (rendered : List String) :
    "None" ∉ dedupSeen [] (pySortedStr (rendered.filter (· ≠ "None"))) := by
  intro hmem
  have h1 : "None" ∈ pySortedStr (rendered.filter (· ≠ "None")) :=
    (dedupSeen_sublist _ _).subset hmem
  have h2 : "None" ∈ rendered.filter (· ≠ "None") := (pySorted_perm _).mem_iff.mp h1
  have h3 := (List.mem_filter.mp h2).2
  simp at h3

theorem unionCanon_nodup (rendered : List String) : (unionCanon rendered).Nodup := by
  unfold unionCanon
  refine List.Nodup.append (dedupSeen_nodup _ _).1 ?_ ?_
  · split
    · exact List.nodup_singleton _
    · exact List.nodup_nil
  · intro x hx hx2
    have hxn : x = "None" := by
      revert hx2
      split
      · intro hx2
        exact List.mem_singleton.mp hx2
      · intro hx2
        exact absurd hx2 (List.not_mem_nil x)
    rw [hxn] at hx
    exact none_not_mem_ucFront rendered hx

theorem unionCanon_none_last (rendered : List String) :
    "None" ∉ (unionCanon rendered).dropLast := by
  unfold unionCanon
  by_cases h : memStr "None" rendered = true
  · rw [if_pos h, List.dropLast_concat]
    exact none_not_mem_ucFront rendered
  · rw [if_neg h, List.append_nil]
    exact fun hm =>
      none_not_mem_ucFront rendered ((List.dropLast_sublist _).subset hm)

/-- C7: union rendering is order-insensitive and canonical.  For every
environment: (1) two member orderings of the same union render to
identical text, from any two discovery states; (2) the rendered text is
the join of the canonical member list of the members' texts, and that
canonical list is de-duplicated (`Nodup`), its non-`"None"` part is
sorted in Python string order, and `"None"` is never followed by another
member; (3) a union of `int` and `None` renders as `"int | None"` from
either member order, never `"None | int"`. -/
theorem c7_union_canonical (env : Env) (st1 st2 : GenState)
    (args1 args2 : List Ann) (h : List.Perm args1 args2) :
    (renderUnion env args1 st1).1 = (renderUnion env args2 st2).1
    ∧ (∀ (args : List Ann) (st : GenState),
         (renderUnion env args st).1
            = String.intercalate " | " (unionCanon (args.map (stubText env)))
         ∧ (unionCanon (args.map (stubText env))).Nodup
         ∧ ((unionCanon (args.map (stubText env))).filter (· ≠ "None")).Pairwise strR
         ∧ "None" ∉ (unionCanon (args.map (stubText env))).dropLast)
    ∧ (∀ (st : GenState),
         (renderUnion env [intC, Ann.noneT] st).1 = "int | None"
         ∧ (renderUnion env [Ann.noneT, intC] st).1 = "int | None") := by
  refine ⟨?_, ?_, ?_⟩
  · show String.intercalate " | " (unionCanon (stubListAll env args1 st1).1)
        = String.intercalate " | " (unionCanon (stubListAll env args2 st2).1)
    rw [stubListAll_texts env args1 st1, stubListAll_texts env args2 st2]
    exact congrArg _ (unionCanon_congr (h.map _))
  · intro args st
    refine ⟨?_, unionCanon_nodup _, ?_, unionCanon_none_last _⟩
    · show String.intercalate " | " (unionCanon (stubListAll env args st).1)
          = String.intercalate " | " (unionCanon (args.map (stubText env)))
      rw [stubListAll_texts env args st]
    · rw [unionCanon_filter]
      exact List.Pairwise.sublist (dedupSeen_sublist _ _) (pySorted_sorted _)
  · intro st
    exact ⟨rfl, rfl⟩

/-- Union canonicalisation holds at a concrete union: `None | int` and
`int | None` render to the same text. -/
theorem c7_witness :
    (renderUnion [] [Ann.noneT, intC] GenState.initial).1
      = (renderUnion [] [intC, Ann.noneT] GenState.initial).1 :=
  (c7_union_canonical [] GenState.initial GenState.initial
    [Ann.noneT, intC] [intC, Ann.noneT] (List.Perm.swap intC Ann.noneT [])).1

/-! ### Registry invariance of the renderer on reference-free annotations

Rendering a reference-free annotation never touches the four name
registries (only the two usage flags).  This is what makes the
auxiliary-definition emission loop a plain sorted traversal when no
registered body references another named type. -/

theorem strFallback_regs (env : Env) (a : Ann) (st : GenState) :
    ((strFallback env a st).2).regQuad = st.regQuad := by
  show (if pyReplaceTyping (pyStr env a) = "Any"
        then { st with usesAny := true } else st).regQuad = st.regQuad
  split <;> rfl

/-- Helper: registry invariance descends through the rendered argument
list. -/
theorem regs_args_aux (env : Env) (a : Ann) (l : List Ann) (st : GenState)
    (hst : ((annotToStub env a st).2).regQuad = ((stubArgs env l st).2).regQuad)
    (hargs : ((stubArgs env l st).2).regQuad = st.regQuad) :
    ((annotToStub env a st).2).regQuad = st.regQuad := hst.trans hargs

/-- Helper: registry invariance for `tuple[T, ...]`. -/
theorem tuple_ellipsis_regs_aux (env : Env) (a0 : Ann) (st : GenState)
    (hst : ((annotToStub env (.generic (.builtin .btuple) [a0, .ellipsisO]) st).2).regQuad
        = ((annotToStub env a0 (stubArgs env [a0, .ellipsisO] st).2).2).regQuad)
    (h0 : ((annotToStub env a0 (stubArgs env [a0, .ellipsisO] st).2).2).regQuad
        = ((stubArgs env [a0, .ellipsisO] st).2).regQuad)
    (hargs : ((stubArgs env [a0, .ellipsisO] st).2).regQuad = st.regQuad) :
    ((annotToStub env (.generic (.builtin .btuple) [a0, .ellipsisO]) st).2).regQuad
      = st.regQuad :=
  (hst.trans h0).trans hargs

/-- Helper: registry invariance for `Callable[..., R]`. -/
theorem callable_ellipsis_regs_aux (env : Env) (r : Ann) (st : GenState)
    (hst : ((annotToStub env (.generic (.builtin .bcallable) [.ellipsisO, r]) st).2).regQuad
        = ((annotToStub env r
            { (stubArgs env [Ann.ellipsisO, r] st).2 with usesCallable := true }).2).regQuad)
    (hr : ((annotToStub env r
            { (stubArgs env [Ann.ellipsisO, r] st).2 with usesCallable := true }).2).regQuad
        = ((stubArgs env [Ann.ellipsisO, r] st).2).regQuad)
    (hargs : ((stubArgs env [Ann.ellipsisO, r] st).2).regQuad = st.regQuad) :
    ((annotToStub env (.generic (.builtin .bcallable) [.ellipsisO, r]) st).2).regQuad
      = st.regQuad :=
  (hst.trans hr).trans hargs

/-- Helper: registry invariance for `Callable[[...], R]`. -/
theorem callable_pylist_regs_aux (env : Env) (ps : List Ann) (r : Ann) (st : GenState)
    (hst : ((annotToStub env (.generic (.builtin .bcallable) [.pylist ps, r]) st).2).regQuad
        = ((annotToStub env r
            (stubListAll env ps
              { (stubArgs env [Ann.pylist ps, r] st).2 with usesCallable := true }).2).2).regQuad)
    (hr : ((annotToStub env r
            (stubListAll env ps
              { (stubArgs env [Ann.pylist ps, r] st).2 with usesCallable := true }).2).2).regQuad
        = ((stubListAll env ps
            { (stubArgs env [Ann.pylist ps, r] st).2 with usesCallable := true }).2).regQuad)
    (hps : ((stubListAll env ps
            { (stubArgs env [Ann.pylist ps, r] st).2 with usesCallable := true }).2).regQuad
        = ((stubArgs env [Ann.pylist ps, r] st).2).regQuad)
    (hargs : ((stubArgs env [Ann.pylist ps, r] st).2).regQuad = st.regQuad) :
    ((annotToStub env (.generic (.builtin .bcallable) [.pylist ps, r]) st).2).regQuad
      = st.regQuad :=
  ((hst.trans hr).trans hps).trans hargs

/-- Helper: registry invariance for a generic with an unrecognised
origin. -/
theorem origin_general_regs_aux (env : Env) (o : Ann) (l : List Ann) (st : GenState)
    (hst : ((annotToStub env (.generic o l) st).2).regQuad
        = ((annotToStub env o (stubArgs env l st).2).2).regQuad)
    (ho : ((annotToStub env o (stubArgs env l st).2).2).regQuad
        = ((stubArgs env l st).2).regQuad)
    (hargs : ((stubArgs env l st).2).regQuad = st.regQuad) :
    ((annotToStub env (.generic o l) st).2).regQuad = st.regQuad :=
  (hst.trans ho).trans hargs

set_option maxHeartbeats 3200000 in
mutual

theorem annotToStub_regs (env : Env) :
    ∀ (a : Ann) (st : GenState), refFree a = true →
      ((annotToStub env a st).2).regQuad = st.regQuad
  | .empty, _, _ => rfl
  | .anyT, _, _ => rfl
  | .noneT, _, _ => rfl
  | .ellipsisO, st, _ => strFallback_regs env .ellipsisO st
  | .unionO, st, _ => strFallback_regs env .unionO st
  | .builtin _, _, _ => rfl
  | .ref _, _, h => (Bool.false_ne_true h).elim
  | .plainClass _ _ _, _, _ => rfl
  | .other s r, st, _ => strFallback_regs env (.other s r) st
  | .pylist xs, st, _ => strFallback_regs env (.pylist xs) st
  | .generic .unionO args, st, h => by
      show ((stubListAll env args st).2).regQuad = st.regQuad
      exact stubListAll_regs env args st (Bool.and_eq_true_iff.mp h).2
  | .generic (.builtin .blist) args, st, h =>
      regs_args_aux env _ args st rfl
        (stubArgs_regs env args st (Bool.and_eq_true_iff.mp h).2)
  | .generic (.builtin .bset) args, st, h =>
      regs_args_aux env _ args st rfl
        (stubArgs_regs env args st (Bool.and_eq_true_iff.mp h).2)
  | .generic (.builtin .bfrozenset) args, st, h =>
      regs_args_aux env _ args st rfl
        (stubArgs_regs env args st (Bool.and_eq_true_iff.mp h).2)
  | .generic (.builtin .bdict) args, st, h =>
      regs_args_aux env _ args st rfl
        (stubArgs_regs env args st (Bool.and_eq_true_iff.mp h).2)
  | .generic (.builtin .btuple) args, st, h => by
      rcases args with _ | ⟨a0, _ | ⟨a1, _ | ⟨a2, rest⟩⟩⟩
      · exact regs_args_aux env _ [] st rfl
          (stubArgs_regs env [] st (Bool.and_eq_true_iff.mp h).2)
      · exact regs_args_aux env _ [a0] st rfl
          (stubArgs_regs env [a0] st (Bool.and_eq_true_iff.mp h).2)
      · cases a1 with
        | ellipsisO =>
            exact tuple_ellipsis_regs_aux env a0 st rfl
              (annotToStub_regs env a0 (stubArgs env [a0, .ellipsisO] st).2
                (Bool.and_eq_true_iff.mp (Bool.and_eq_true_iff.mp h).2).1)
              (stubArgs_regs env [a0, .ellipsisO] st (Bool.and_eq_true_iff.mp h).2)
        | empty =>
            exact regs_args_aux env _ [a0, .empty] st rfl
              (stubArgs_regs env [a0, .empty] st (Bool.and_eq_true_iff.mp h).2)
        | anyT =>
            exact regs_args_aux env _ [a0, .anyT] st rfl
              (stubArgs_regs env [a0, .anyT] st (Bool.and_eq_true_iff.mp h).2)
        | noneT =>
            exact regs_args_aux env _ [a0, .noneT] st rfl
              (stubArgs_regs env [a0, .noneT] st (Bool.and_eq_true_iff.mp h).2)
        | unionO =>
            exact regs_args_aux env _ [a0, .unionO] st rfl
              (stubArgs_regs env [a0, .unionO] st (Bool.and_eq_true_iff.mp h).2)
        | builtin b =>
            exact regs_args_aux env _ [a0, .builtin b] st rfl
              (stubArgs_regs env [a0, .builtin b] st (Bool.and_eq_true_iff.mp h).2)
        | ref i =>
            exact regs_args_aux env _ [a0, .ref i] st rfl
              (stubArgs_regs env [a0, .ref i] st (Bool.and_eq_true_iff.mp h).2)
        | plainClass m q n =>
            exact regs_args_aux env _ [a0, .plainClass m q n] st rfl
              (stubArgs_regs env [a0, .plainClass m q n] st (Bool.and_eq_true_iff.mp h).2)
        | other s2 r2 =>
            exact regs_args_aux env _ [a0, .other s2 r2] st rfl
              (stubArgs_regs env [a0, .other s2 r2] st (Bool.and_eq_true_iff.mp h).2)
        | pylist xs =>
            exact regs_args_aux env _ [a0, .pylist xs] st rfl
              (stubArgs_regs env [a0, .pylist xs] st (Bool.and_eq_true_iff.mp h).2)
        | generic o2 a2 =>
            exact regs_args_aux env _ [a0, .generic o2 a2] st rfl
              (stubArgs_regs env [a0, .generic o2 a2] st (Bool.and_eq_true_iff.mp h).2)
      · exact regs_args_aux env _ (a0 :: a1 :: a2 :: rest) st rfl
          (stubArgs_regs env (a0 :: a1 :: a2 :: rest) st (Bool.and_eq_true_iff.mp h).2)
  | .generic (.builtin .bcallable) args, st, h => by
      rcases args with _ | ⟨p, _ | ⟨r, _ | ⟨x, rest⟩⟩⟩
      · exact regs_args_aux env _ [] st rfl
          (stubArgs_regs env [] st (Bool.and_eq_true_iff.mp h).2)
      · exact regs_args_aux env _ [p] st rfl
          (stubArgs_regs env [p] st (Bool.and_eq_true_iff.mp h).2)
      · cases p with
        | ellipsisO =>
            exact callable_ellipsis_regs_aux env r st rfl
              (annotToStub_regs env r
                { (stubArgs env [Ann.ellipsisO, r] st).2 with usesCallable := true }
                (Bool.and_eq_true_iff.mp
                  (Bool.and_eq_true_iff.mp (Bool.and_eq_true_iff.mp h).2).2).1)
              (stubArgs_regs env [Ann.ellipsisO, r] st (Bool.and_eq_true_iff.mp h).2)
        | pylist ps =>
            exact callable_pylist_regs_aux env ps r st rfl
              (annotToStub_regs env r
                (stubListAll env ps
                  { (stubArgs env [Ann.pylist ps, r] st).2 with usesCallable := true }).2
                (Bool.and_eq_true_iff.mp
                  (Bool.and_eq_true_iff.mp (Bool.and_eq_true_iff.mp h).2).2).1)
              (stubListAll_regs env ps
                { (stubArgs env [Ann.pylist ps, r] st).2 with usesCallable := true }
                (Bool.and_eq_true_iff.mp (Bool.and_eq_true_iff.mp h).2).1)
              (stubArgs_regs env [Ann.pylist ps, r] st (Bool.and_eq_true_iff.mp h).2)
        | empty =>
            exact regs_args_aux env _ [.empty, r] st rfl
              (stubArgs_regs env [.empty, r] st (Bool.and_eq_true_iff.mp h).2)
        | anyT =>
            exact regs_args_aux env _ [.anyT, r] st rfl
              (stubArgs_regs env [.anyT, r] st (Bool.and_eq_true_iff.mp h).2)
        | noneT =>
            exact regs_args_aux env _ [.noneT, r] st rfl
              (stubArgs_regs env [.noneT, r] st (Bool.and_eq_true_iff.mp h).2)
        | unionO =>
            exact regs_args_aux env _ [.unionO, r] st rfl
              (stubArgs_regs env [.unionO, r] st (Bool.and_eq_true_iff.mp h).2)
        | builtin b =>
            exact regs_args_aux env _ [.builtin b, r] st rfl
              (stubArgs_regs env [.builtin b, r] st (Bool.and_eq_true_iff.mp h).2)
        | ref i =>
            exact regs_args_aux env _ [.ref i, r] st rfl
              (stubArgs_regs env [.ref i, r] st (Bool.and_eq_true_iff.mp h).2)
        | plainClass m q n =>
            exact regs_args_aux env _ [.plainClass m q n, r] st rfl
              (stubArgs_regs env [.plainClass m q n, r] st (Bool.and_eq_true_iff.mp h).2)
        | other s2 r2 =>
            exact regs_args_aux env _ [.other s2 r2, r] st rfl
              (stubArgs_regs env [.other s2 r2, r] st (Bool.and_eq_true_iff.mp h).2)
        | generic o2 a2 =>
            exact regs_args_aux env _ [.generic o2 a2, r] st rfl
              (stubArgs_regs env [.generic o2 a2, r] st (Bool.and_eq_true_iff.mp h).2)
      · exact regs_args_aux env _ (p :: r :: x :: rest) st rfl
          (stubArgs_regs env (p :: r :: x :: rest) st (Bool.and_eq_true_iff.mp h).2)
  | .generic .empty args, st, h =>
      origin_general_regs_aux env .empty args st rfl rfl
        (stubArgs_regs env args st (Bool.and_eq_true_iff.mp h).2)
  | .generic .anyT args, st, h =>
      origin_general_regs_aux env .anyT args st rfl rfl
        (stubArgs_regs env args st (Bool.and_eq_true_iff.mp h).2)
  | .generic .noneT args, st, h =>
      origin_general_regs_aux env .noneT args st rfl rfl
        (stubArgs_regs env args st (Bool.and_eq_true_iff.mp h).2)
  | .generic .ellipsisO args, st, h =>
      origin_general_regs_aux env .ellipsisO args st rfl
        (strFallback_regs env .ellipsisO (stubArgs env args st).2)
        (stubArgs_regs env args st (Bool.and_eq_true_iff.mp h).2)
  | .generic (.ref id) args, _, h =>
      (Bool.false_ne_true (Bool.and_eq_true_iff.mp h).1).elim
  | .generic (.plainClass m q n) args, st, h =>
      origin_general_regs_aux env (.plainClass m q n) args st rfl rfl
        (stubArgs_regs env args st (Bool.and_eq_true_iff.mp h).2)
  | .generic (.other s r) args, st, h =>
      origin_general_regs_aux env (.other s r) args st rfl
        (strFallback_regs env (.other s r) (stubArgs env args st).2)
        (stubArgs_regs env args st (Bool.and_eq_true_iff.mp h).2)
  | .generic (.pylist xs) args, st, h =>
      origin_general_regs_aux env (.pylist xs) args st rfl
        (strFallback_regs env (.pylist xs) (stubArgs env args st).2)
        (stubArgs_regs env args st (Bool.and_eq_true_iff.mp h).2)
  | .generic (.generic o2 a2) args, st, h =>
      origin_general_regs_aux env (.generic o2 a2) args st rfl
        (annotToStub_regs env (.generic o2 a2) (stubArgs env args st).2
          (Bool.and_eq_true_iff.mp h).1)
        (stubArgs_regs env args st (Bool.and_eq_true_iff.mp h).2)

theorem stubArgs_regs (env : Env) :
    ∀ (l : List Ann) (st : GenState), refFreeList l = true →
      ((stubArgs env l st).2).regQuad = st.regQuad
  | [], _, _ => rfl
  | a :: rest, st, h => by
      show ((if a.isEllipsis = true then stubArgs env rest st
            else ((annotToStub env a st).1 :: (stubArgs env rest (annotToStub env a st).2).1,
              (stubArgs env rest (annotToStub env a st).2).2)).2).regQuad = st.regQuad
      cases hp : a.isEllipsis with
      | true =>
          rw [if_pos rfl]
          exact stubArgs_regs env rest st (Bool.and_eq_true_iff.mp h).2
      | false =>
          rw [if_neg Bool.false_ne_true]
          exact (stubArgs_regs env rest (annotToStub env a st).2
              (Bool.and_eq_true_iff.mp h).2).trans
            (annotToStub_regs env a st (Bool.and_eq_true_iff.mp h).1)

theorem stubListAll_regs (env : Env) :
    ∀ (l : List Ann) (st : GenState), refFreeList l = true →
      ((stubListAll env l st).2).regQuad = st.regQuad
  | [], _, _ => rfl
  | a :: rest, st, h => by
      show (((annotToStub env a st).1 :: (stubListAll env rest (annotToStub env a st).2).1,
             (stubListAll env rest (annotToStub env a st).2).2).2).regQuad = st.regQuad
      exact (stubListAll_regs env rest (annotToStub env a st).2
          (Bool.and_eq_true_iff.mp h).2).trans
        (annotToStub_regs env a st (Bool.and_eq_true_iff.mp h).1)

end

theorem fieldLinesOf_regs (env : Env) :
    ∀ (fields : List (String × Ann)) (st : GenState), fieldsRefFree fields = true →
      ((fieldLinesOf env fields st).2).regQuad = st.regQuad
  | [], _, _ => rfl
  | (n, a) :: rest, st, h => by
      show ((("    " ++ n ++ ": " ++ (annotToStub env a st).1)
              :: (fieldLinesOf env rest (annotToStub env a st).2).1,
             (fieldLinesOf env rest (annotToStub env a st).2).2).2).regQuad = st.regQuad
      exact (fieldLinesOf_regs env rest (annotToStub env a st).2
          (Bool.and_eq_true_iff.mp h).2).trans
        (annotToStub_regs env a st (Bool.and_eq_true_iff.mp h).1)

theorem modelStub_regs (env : Env) (name : String) (fields : List (String × Ann))
    (st : GenState) (h : fieldsRefFree fields = true) :
    ((modelStub env name fields st).2).regQuad = st.regQuad := by
  show ((fieldLinesOf env fields st).2).regQuad = st.regQuad
  exact fieldLinesOf_regs env fields st h

theorem dataclassStub_regs (env : Env) (name : String) (fields : List (String × Ann))
    (st : GenState) (h : fieldsRefFree fields = true) :
    ((dataclassStub env name fields st).2).regQuad = st.regQuad := by
  show ((fieldLinesOf env fields st).2).regQuad = st.regQuad
  exact fieldLinesOf_regs env fields st h

theorem modelStub_fst (env : Env) (name : String) (fields : List (String × Ann))
    (st : GenState) :
    (modelStub env name fields st).1 = modelStubText env name fields := by
  show String.intercalate "\n"
        (if (("class " ++ name ++ "(TypedDict):") :: (fieldLinesOf env fields st).1).length = 1
         then (("class " ++ name ++ "(TypedDict):") :: (fieldLinesOf env fields st).1)
           ++ ["    pass"]
         else ("class " ++ name ++ "(TypedDict):") :: (fieldLinesOf env fields st).1)
      = String.intercalate "\n"
        (if (("class " ++ name ++ "(TypedDict):")
              :: (fieldLinesOf env fields GenState.initial).1).length = 1
         then (("class " ++ name ++ "(TypedDict):")
              :: (fieldLinesOf env fields GenState.initial).1) ++ ["    pass"]
         else ("class " ++ name ++ "(TypedDict):")
              :: (fieldLinesOf env fields GenState.initial).1)
  rw [fieldLinesOf_fst env fields st, fieldLinesOf_fst env fields GenState.initial]

theorem dataclassStub_fst (env : Env) (name : String) (fields : List (String × Ann))
    (st : GenState) :
    (dataclassStub env name fields st).1 = dataclassStubText env name fields := by
  show String.intercalate "\n"
        (if (("class " ++ name ++ ":") :: (fieldLinesOf env fields st).1).length = 1
         then (("class " ++ name ++ ":") :: (fieldLinesOf env fields st).1) ++ ["    pass"]
         else ("class " ++ name ++ ":") :: (fieldLinesOf env fields st).1)
      = String.intercalate "\n"
        (if (("class " ++ name ++ ":")
              :: (fieldLinesOf env fields GenState.initial).1).length = 1
         then (("class " ++ name ++ ":")
              :: (fieldLinesOf env fields GenState.initial).1) ++ ["    pass"]
         else ("class " ++ name ++ ":")
              :: (fieldLinesOf env fields GenState.initial).1)
  rw [fieldLinesOf_fst env fields st, fieldLinesOf_fst env fields GenState.initial]

theorem memStr_append_single (x y : String) (h : x ≠ y) :
    ∀ (l : List String), memStr x (l ++ [y]) = memStr x l
  | [] => by
      show (if x = y then true else false) = false
      rw [if_neg h]
  | t :: rest => by
      show (if x = t then true else memStr x (rest ++ [y]))
          = (if x = t then true else memStr x rest)
      rw [memStr_append_single x y h rest]

theorem dlookup_mem : ∀ (l : List (String × Nat)) (k : String) (v : Nat),
    dlookup l k = some v → (k, v) ∈ l
  | [], _, _, h => Option.noConfusion h
  | (k2, v2) :: rest, k, v, h => by
      by_cases hk : k2 = k
      · rw [dlookup, if_pos hk] at h
        injection h with hv
        subst hk
        subst hv
        exact List.mem_cons_self _ _
      · rw [dlookup, if_neg hk] at h
        exact List.mem_cons_of_mem _ (dlookup_mem rest k v h)

/-- `emit_for_annotation` finds nothing below a reference-free
annotation: whenever it returns at all, it returns its input unchanged
(lines 188-210 only act through `emit_named` on registered objects,
which a reference-free annotation cannot reach). -/
theorem emit_noop (env : Env) (skip : List String) : ∀ (n : Nat),
    (∀ (a : Ann) (es es1 : EmitSt), refFree a = true →
        emitForAnn env skip n a es = some es1 → es1 = es)
    ∧ (∀ (l : List Ann) (es es1 : EmitSt), refFreeList l = true →
        emitArgs env skip n l es = some es1 → es1 = es)
    ∧ (∀ (fs : List (String × Ann)) (es es1 : EmitSt), fieldsRefFree fs = true →
        emitFields env skip n fs es = some es1 → es1 = es) := by
  intro n
  induction n with
  | zero =>
      refine ⟨?_, ?_, ?_⟩ <;> intro x es es1 _ hsome <;> exact Option.noConfusion hsome
  | succ n ih =>
      obtain ⟨ihA, ihL, ihF⟩ := ih
      refine ⟨?_, ?_, ?_⟩
      · intro a es es1 hrf hsome
        cases a with
        | empty => exact (Option.some.inj hsome).symm
        | anyT => exact (Option.some.inj hsome).symm
        | noneT => exact (Option.some.inj hsome).symm
        | ellipsisO => exact (Option.some.inj hsome).symm
        | unionO => exact (Option.some.inj hsome).symm
        | builtin b => exact (Option.some.inj hsome).symm
        | ref id => exact (Bool.false_ne_true hrf).elim
        | plainClass m q nm => exact (Option.some.inj hsome).symm
        | other s r => exact (Option.some.inj hsome).symm
        | pylist xs => exact (Option.some.inj hsome).symm
        | generic o args =>
            exact ihL args es es1 (Bool.and_eq_true_iff.mp hrf).2 hsome
      · intro l es es1 hrf hsome
        cases l with
        | nil => exact (Option.some.inj hsome).symm
        | cons a rest =>
            rcases Bool.and_eq_true_iff.mp hrf with ⟨h1, h2⟩
            by_cases hp : a.isEllipsis = true
            · rw [emitArgs, if_pos hp] at hsome
              exact ihL rest es es1 h2 hsome
            · rw [emitArgs, if_neg hp] at hsome
              rcases Option.bind_eq_some.mp hsome with ⟨es2, hA, hrest⟩
              have he2 : es2 = es := ihA a es es2 h1 hA
              subst he2
              exact ihL rest es2 es1 h2 hrest
      · intro fs es es1 hrf hsome
        cases fs with
        | nil => exact (Option.some.inj hsome).symm
        | cons p rest =>
            rcases p with ⟨nm, a⟩
            rcases Bool.and_eq_true_iff.mp hrf with ⟨h1, h2⟩
            rw [emitFields] at hsome
            rcases Option.bind_eq_some.mp hsome with ⟨es2, hA, hrest⟩
            have he2 : es2 = es := ihA a es es2 h1 hA
            subst he2
            exact ihF rest es2 es1 h2 hrest

/-- One `emit_named` call on a fresh candidate name, when every
registered body is reference-free: it appends exactly the block
`renderOneDef` reads off the registries (nothing for an unknown or
skipped name), leaves the registries unchanged, and extends the emitted
set by at most the candidate itself. -/
theorem emitNamed_step (env : Env) (skip : List String) (st0 : GenState)
    (hok : ∀ p ∈ regPairs st0, bodyRefFree env p.2 = true) :
    ∀ (n : Nat) (name : String) (es es1 : EmitSt),
      es.st.regQuad = st0.regQuad →
      memStr name es.emitted = false →
      emitNamed env skip n name es = some es1 →
      es1.st.regQuad = st0.regQuad
      ∧ es1.rendered = es.rendered ++ (renderOneDef env st0 skip name).toList
      ∧ ∀ x, x ≠ name → memStr x es1.emitted = memStr x es.emitted := by
  intro n name es es1 hreg hfresh hsome
  cases n with
  | zero => exact Option.noConfusion hsome
  | succ n =>
    have hnt : es.st.newTypes = st0.newTypes := congrArg (fun q => q.1) hreg
    have hta : es.st.typeAliases = st0.typeAliases := congrArg (fun q => q.2.1) hreg
    have hbm : es.st.baseModels = st0.baseModels := congrArg (fun q => q.2.2.1) hreg
    have hdc : es.st.dataclasses = st0.dataclasses := congrArg (fun q => q.2.2.2) hreg
    simp only [emitNamed, hfresh, Bool.false_eq_true, if_false, hnt, hta, hbm, hdc] at hsome
    cases hd1 : dlookup st0.newTypes name with
    | some id =>
        simp only [hd1] at hsome
        have hbody : bodyRefFree env id = true :=
          hok (name, id)
            (List.mem_append.mpr (.inl (List.mem_append.mpr
              (.inl (List.mem_append.mpr (.inl (dlookup_mem _ _ _ hd1)))))))
        cases henv : envGet env id with
        | none =>
            simp only [henv] at hsome
            exact Option.noConfusion hsome
        | some d =>
          cases d with
          | newtype m q nm sup =>
              simp only [henv] at hsome
              rcases Option.bind_eq_some.mp hsome with ⟨es2, hA, hpack⟩
              have hsup : refFree sup = true := by
                simp only [bodyRefFree, henv] at hbody
                exact hbody
              have he2 : es2 = es := (emit_noop env skip n).1 sup es es2 hsup hA
              rw [he2] at hpack
              injection hpack with hes
              subst hes
              have hro : renderOneDef env st0 skip name
                  = some (name ++ " = NewType(\"" ++ name ++ "\", "
                      ++ stubText env sup ++ ")") := by
                simp only [renderOneDef, hd1, henv]
              refine ⟨?_, ?_, ?_⟩
              · show ((annotToStub env sup es.st).2).regQuad = st0.regQuad
                exact (annotToStub_regs env sup es.st hsup).trans hreg
              · rw [hro]
                show es.rendered ++ [name ++ " = NewType(\"" ++ name ++ "\", "
                      ++ (annotToStub env sup es.st).1 ++ ")"]
                    = es.rendered ++ [name ++ " = NewType(\"" ++ name ++ "\", "
                      ++ stubText env sup ++ ")"]
                rw [annotToStub_fst_const env sup es.st GenState.initial]
                rfl
              · show ∀ x, x ≠ name → memStr x (es.emitted ++ [name]) = memStr x es.emitted
                exact fun x hx => memStr_append_single x name hx es.emitted
          | talias nm v =>
              simp only [henv] at hsome
              exact Option.noConfusion hsome
          | model m q nm fields =>
              simp only [henv] at hsome
              exact Option.noConfusion hsome
          | dclass m q nm fields =>
              simp only [henv] at hsome
              exact Option.noConfusion hsome
    | none =>
      simp only [hd1] at hsome
      cases hd2 : dlookup st0.typeAliases name with
      | some id =>
          simp only [hd2] at hsome
          have hbody : bodyRefFree env id = true :=
            hok (name, id)
              (List.mem_append.mpr (.inl (List.mem_append.mpr
                (.inl (List.mem_append.mpr (.inr (dlookup_mem _ _ _ hd2)))))))
          cases henv : envGet env id with
          | none =>
              simp only [henv] at hsome
              exact Option.noConfusion hsome
          | some d =>
            cases d with
            | talias nm v =>
                simp only [henv] at hsome
                rcases Option.bind_eq_some.mp hsome with ⟨es2, hA, hpack⟩
                have hv : refFree v = true := by
                  simp only [bodyRefFree, henv] at hbody
                  exact hbody
                have he2 : es2 = es := (emit_noop env skip n).1 v es es2 hv hA
                rw [he2] at hpack
                injection hpack with hes
                subst hes
                have hro : renderOneDef env st0 skip name
                    = some (name ++ " = " ++ stubText env v) := by
                  simp only [renderOneDef, hd1, hd2, henv]
                refine ⟨?_, ?_, ?_⟩
                · show ((annotToStub env v es.st).2).regQuad = st0.regQuad
                  exact (annotToStub_regs env v es.st hv).trans hreg
                · rw [hro]
                  show es.rendered ++ [name ++ " = " ++ (annotToStub env v es.st).1]
                      = es.rendered ++ [name ++ " = " ++ stubText env v]
                  rw [annotToStub_fst_const env v es.st GenState.initial]
                  rfl
                · show ∀ x, x ≠ name → memStr x (es.emitted ++ [name]) = memStr x es.emitted
                  exact fun x hx => memStr_append_single x name hx es.emitted
            | newtype m q nm sup =>
                simp only [henv] at hsome
                exact Option.noConfusion hsome
            | model m q nm fields =>
                simp only [henv] at hsome
                exact Option.noConfusion hsome
            | dclass m q nm fields =>
                simp only [henv] at hsome
                exact Option.noConfusion hsome
      | none =>
        simp only [hd2] at hsome
        cases hd3 : dlookup st0.baseModels name with
        | some id =>
            simp only [hd3] at hsome
            have hbody : bodyRefFree env id = true :=
              hok (name, id)
                (List.mem_append.mpr (.inl (List.mem_append.mpr
                  (.inr (dlookup_mem _ _ _ hd3)))))
            by_cases hskip : memStr name skip = true
            · rw [if_pos hskip] at hsome
              have hes : es = es1 := Option.some.inj hsome
              subst hes
              have hro : renderOneDef env st0 skip name = none := by
                simp only [renderOneDef, hd1, hd2, hd3, if_pos hskip]
              rw [hro]
              exact ⟨hreg, (List.append_nil _).symm, fun x _ => rfl⟩
            · rw [if_neg hskip] at hsome
              cases henv : envGet env id with
              | none =>
                  simp only [henv] at hsome
                  exact Option.noConfusion hsome
              | some d =>
                cases d with
                | model m q nm fields =>
                    simp only [henv] at hsome
                    rcases Option.bind_eq_some.mp hsome with ⟨es2, hF, hpack⟩
                    have hff : fieldsRefFree fields = true := by
                      simp only [bodyRefFree, henv] at hbody
                      exact hbody
                    have he2 : es2 = es := (emit_noop env skip n).2.2 fields es es2 hff hF
                    rw [he2] at hpack
                    injection hpack with hes
                    subst hes
                    have hro : renderOneDef env st0 skip name
                        = some (modelStubText env nm fields) := by
                      simp only [renderOneDef, hd1, hd2, hd3, if_neg hskip, henv]
                    refine ⟨?_, ?_, ?_⟩
                    · show ((modelStub env nm fields es.st).2).regQuad = st0.regQuad
                      exact (modelStub_regs env nm fields es.st hff).trans hreg
                    · rw [hro]
                      show es.rendered ++ [(modelStub env nm fields es.st).1]
                          = es.rendered ++ [modelStubText env nm fields]
                      rw [modelStub_fst env nm fields es.st]
                    · show ∀ x, x ≠ name →
                          memStr x (es.emitted ++ [name]) = memStr x es.emitted
                      exact fun x hx => memStr_append_single x name hx es.emitted
                | newtype m q nm sup =>
                    simp only [henv] at hsome
                    exact Option.noConfusion hsome
                | talias nm v =>
                    simp only [henv] at hsome
                    exact Option.noConfusion hsome
                | dclass m q nm fields =>
                    simp only [henv] at hsome
                    exact Option.noConfusion hsome
        | none =>
          simp only [hd3] at hsome
          cases hd4 : dlookup st0.dataclasses name with
          | some id =>
              simp only [hd4] at hsome
              have hbody : bodyRefFree env id = true :=
                hok (name, id)
                  (List.mem_append.mpr (.inr (dlookup_mem _ _ _ hd4)))
              cases henv : envGet env id with
              | none =>
                  simp only [henv] at hsome
                  exact Option.noConfusion hsome
              | some d =>
                cases d with
                | dclass m q nm fields =>
                    simp only [henv] at hsome
                    rcases Option.bind_eq_some.mp hsome with ⟨es2, hF, hpack⟩
                    have hff : fieldsRefFree fields = true := by
                      simp only [bodyRefFree, henv] at hbody
                      exact hbody
                    have he2 : es2 = es := (emit_noop env skip n).2.2 fields es es2 hff hF
                    rw [he2] at hpack
                    injection hpack with hes
                    subst hes
                    have hro : renderOneDef env st0 skip name
                        = some (dataclassStubText env nm fields) := by
                      simp only [renderOneDef, hd1, hd2, hd3, hd4, henv]
                    refine ⟨?_, ?_, ?_⟩
                    · show ((dataclassStub env nm fields es.st).2).regQuad = st0.regQuad
                      exact (dataclassStub_regs env nm fields es.st hff).trans hreg
                    · rw [hro]
                      show es.rendered ++ [(dataclassStub env nm fields es.st).1]
                          = es.rendered ++ [dataclassStubText env nm fields]
                      rw [dataclassStub_fst env nm fields es.st]
                    · show ∀ x, x ≠ name →
                          memStr x (es.emitted ++ [name]) = memStr x es.emitted
                      exact fun x hx => memStr_append_single x name hx es.emitted
                | newtype m q nm sup =>
                    simp only [henv] at hsome
                    exact Option.noConfusion hsome
                | talias nm v =>
                    simp only [henv] at hsome
                    exact Option.noConfusion hsome
                | model m q nm fields =>
                    simp only [henv] at hsome
                    exact Option.noConfusion hsome
          | none =>
              simp only [hd4] at hsome
              have hes : es = es1 := Option.some.inj hsome
              subst hes
              have hro : renderOneDef env st0 skip name = none := by
                simp only [renderOneDef, hd1, hd2, hd3, hd4]
              rw [hro]
              exact ⟨hreg, (List.append_nil _).symm, fun x _ => rfl⟩

/-- The candidate loop of `_render_custom_definitions`, on duplicate-free
candidates none of which was emitted yet, when every registered body is
reference-free: it appends exactly the `renderOneDef` block of each
candidate, in candidate order. -/
theorem emitAll_chars (env : Env) (skip : List String) (st0 : GenState)
    (hok : ∀ p ∈ regPairs st0, bodyRefFree env p.2 = true) (fuel : Nat) :
    ∀ (cs : List String) (es es1 : EmitSt),
      es.st.regQuad = st0.regQuad →
      (∀ x ∈ cs, memStr x es.emitted = false) →
      cs.Nodup →
      emitAll env skip fuel cs es = some es1 →
      es1.rendered = es.rendered ++ cs.filterMap (renderOneDef env st0 skip) := by
  intro cs
  induction cs with
  | nil =>
      intro es es1 _ _ _ hsome
      have h := Option.some.inj hsome
      subst h
      rw [List.filterMap_nil, List.append_nil]
  | cons c rest ih =>
      intro es es1 hreg hfresh hnd hsome
      rw [emitAll] at hsome
      rcases Option.bind_eq_some.mp hsome with ⟨es2, hstep, hrest⟩
      have hf : memStr c es.emitted = false := hfresh c (List.mem_cons_self _ _)
      obtain ⟨hreg2, hrend2, hemit2⟩ :=
        emitNamed_step env skip st0 hok fuel c es es2 hreg hf hstep
      rcases List.nodup_cons.mp hnd with ⟨hcnotin, hndrest⟩
      have hfresh2 : ∀ x ∈ rest, memStr x es2.emitted = false := by
        intro x hx
        rw [hemit2 x (fun hxc => hcnotin (hxc ▸ hx))]
        exact hfresh x (List.mem_cons_of_mem _ hx)
      have hres := ih es2 es1 hreg2 hfresh2 hndrest hrest
      rw [hres, hrend2, List.append_assoc]
      congr 1
      cases hro : renderOneDef env st0 skip c with
      | none =>
          rw [List.filterMap_cons_none hro]
          rfl
      | some b =>
          rw [List.filterMap_cons_some hro]
          rfl

/-- C6 (amended): when no registered definition references another named
type, the auxiliary-definition section consists of exactly one block per
registered name, read off the registries by `renderOneDef`, traversed in
Python-sorted (name-sorted) order over the union of the four registries'
key sets - so in this reference-free case the blocks appear in
name-sorted order whatever the discovery order was.  (The
`c6_counterexample` shows that with inter-references the source's
dependency-first recursion breaks the plain sorted order.) -/
theorem c6_amended (env : Env) (fuel : Nat) (skip : List String) (st : GenState)
    (blocks : List String) (st2 : GenState)
    (hok : ∀ p ∈ regPairs st, bodyRefFree env p.2 = true)
    (h : renderCustomDefs env fuel skip st = some (blocks, st2)) :
    blocks = (pySortedStr (regNames st).dedup).filterMap (renderOneDef env st skip) := by
  rcases Option.map_eq_some'.mp h with ⟨es, hall, hpair⟩
  have hb : es.rendered = blocks := congrArg Prod.fst hpair
  have hnd : (pySortedStr (regNames st).dedup).Nodup :=
    ((pySorted_perm _).nodup_iff).mpr (List.nodup_dedup _)
  have hchars := emitAll_chars env skip st hok fuel (pySortedStr (regNames st).dedup)
    ⟨st, [], []⟩ es rfl (fun x _ => rfl) hnd hall
  rw [← hb, hchars]
  rfl

/-- The amended C6 characterisation holds at a concrete state with two
independent registered definitions discovered in reverse-sorted order:
the emitted blocks are the alias `AAA` then the new-type `BBB`, in
name-sorted order. -/
theorem c6_witness :
    (∀ p ∈ regPairs stW6, bodyRefFree envW6 p.2 = true)
    ∧ ["AAA = str", "BBB = NewType(\"BBB\", int)"]
        = (pySortedStr (regNames stW6).dedup).filterMap (renderOneDef envW6 stW6 []) :=
  ⟨by decide,
   c6_amended envW6 60 [] stW6 ["AAA = str", "BBB = NewType(\"BBB\", int)"] stW6
     (by decide) (by decide)⟩

end Grail
